import Mathlib

/-!
# http-server: routing, messages, connection state machine, acceptor

A shallow embedding of `uri.h`, `http_message.cpp` and `http_server.cpp`.

* A `std::string` is a list of bytes (`Str`), each byte the value of an
  `unsigned char`.
* A `std::map` is an association list searched front to back (`StdMap`); the
  iteration order of the map is never observed by the code embedded here.
* Heap objects (`EventData`) live in an explicit heap indexed by address, the
  multiplexer is an interest list per epoll descriptor, and a C++ exception is
  the `Except.error` result.
-/

namespace httpserver

/-! ## Strings -/

/-- A `std::string`: its bytes, each the value of an `unsigned char`. -/
abbrev Str := List Nat

/-- The bytes of a string literal of the source. -/
def lit (s : String) : Str := s.data.map Char.toNat

/-- The function `std::tolower` in the "C" locale (the program never calls `setlocale`):
the upper-case ASCII letters 65..90 are moved to 97..122, every other value is kept. -/
def tolower (c : Nat) : Nat := if 65 ≤ c ∧ c ≤ 90 then c + 32 else c

/-- The comparison `std::string::operator<`: lexicographic, bytes compared as `unsigned char`. -/
def strLt : Str → Str → Bool
  | [], [] => false
  | [], _ :: _ => true
  | _ :: _, [] => false
  | a :: as, b :: bs => if a < b then true else if b < a then false else strLt as bs

/-- The function `std::to_string` on a `size_t`: the decimal digits. -/
def to_string (n : Nat) : Str := (Nat.toDigits 10 n).map Char.toNat

/-! ## uri.h -/

/-- The class `URI`: one private member `_path`; `URI() = default` leaves it empty. -/
structure URI where
  _path : Str := []
deriving DecidableEq, Repr

/-- The member `URI::SetPath`: copy the argument, then lower-case it in place. -/
def URI.SetPath (_self : URI) (path : Str) : URI :=
  { _path := path.map tolower }

/-- The constructor `explicit URI(const std::string& path) { SetPath(path); }`. -/
def URI.ofPath (path : Str) : URI := URI.SetPath {} path

/-- The member `URI::path`. -/
def URI.path (self : URI) : Str := self._path

/-- The member `URI::operator==`. -/
def URI.eq (self other : URI) : Bool := decide (self._path = other._path)

/-- The member `URI::operator<`. -/
def URI.lt (self other : URI) : Bool := strLt self._path other._path

/-- The key equivalence a `std::map<URI, _>` searches with: neither key is less than the other. -/
def URI.equiv (a b : URI) : Bool := !(URI.lt a b) && !(URI.lt b a)

/-! ## std::map -/

/-- A `std::map<K, V>` as an association list with first-match lookup. -/
abbrev StdMap (K V : Type) := List (K × V)

/-- The member `std::map::find`, as the mapped value when present. -/
def StdMap.find {K V : Type} [DecidableEq K] : StdMap K V → K → Option V
  | [], _ => none
  | (k', v) :: rest, k => if k' = k then some v else StdMap.find rest k

/-- The member `std::map::insert` of a pair: an entry is added only when the key is absent;
an existing entry is left as it is. -/
def StdMap.insert {K V : Type} [DecidableEq K] (m : StdMap K V) (k : K) (v : V) : StdMap K V :=
  match StdMap.find m k with
  | some _ => m
  | none => m ++ [(k, v)]

/-- The expression `m[k]` used as a reference that is then changed by `f`: the entry is
value-initialised first when the key is absent. -/
def StdMap.modifyAt {K V : Type} [DecidableEq K] [Inhabited V] :
    StdMap K V → K → (V → V) → StdMap K V
  | [], k, f => [(k, f default)]
  | (k', v) :: rest, k, f =>
    if k' = k then (k', f v) :: rest else (k', v) :: StdMap.modifyAt rest k f

/-- The lookup in a map of maps: the outer key first, then the inner key. -/
def StdMap.find₂ {K K₂ V : Type} [DecidableEq K] [DecidableEq K₂]
    (m : StdMap K (StdMap K₂ V)) (k : K) (k₂ : K₂) : Option V :=
  (StdMap.find m k).bind (fun inner => StdMap.find inner k₂)

/-- The member `std::map::erase` of a key. -/
def StdMap.erase {K V : Type} [DecidableEq K] (m : StdMap K V) (k : K) : StdMap K V :=
  m.filter (fun e => !decide (e.1 = k))

/-! ## http_message.cpp -/

/-- Modelled from the spec: the enum `HttpMethod` is declared in `http_message.h`, which is
not among the sources; these are the methods the sources and the spec name. -/
inductive HttpMethod where
  | GET
  | HEAD
  | POST
deriving DecidableEq, Repr

/-- Modelled from the spec: the enum `HttpVersion` is declared in `http_message.h`, which is
not among the sources; `HTTP_1_1` is the one enumerator the sources name. -/
inductive HttpVersion where
  | HTTP_1_0
  | HTTP_1_1
deriving DecidableEq, Repr

/-- Modelled from the spec: the enum `HttpStatusCode` is declared in `http_message.h`, which
is not among the sources; these are the enumerators the sources name. -/
inductive HttpStatusCode where
  | OK
  | BadRequest
  | NotFound
  | MethodNotAllowed
  | InternalServerError
  | HttpVersionNotSupported
deriving DecidableEq, Repr

/-- Modelled from the spec: the numeric value of a status ("status 200", "status 404",
"status 405"); the enumerator values are declared in the missing `http_message.h`. -/
def HttpStatusCode.code : HttpStatusCode → Nat
  | .OK => 200
  | .BadRequest => 400
  | .NotFound => 404
  | .MethodNotAllowed => 405
  | .InternalServerError => 500
  | .HttpVersionNotSupported => 505

/-- The class `HttpMessage`, with `HttpMessage::HttpMessage() : _version(HTTP_1_1)`. -/
structure HttpMessage where
  _version : HttpVersion := HttpVersion.HTTP_1_1
  _headers : StdMap Str Str := []
  _content : Str := []
deriving DecidableEq, Repr

/-- The member `HttpMessage::SetHeader`: `_headers[key] = value`. -/
def HttpMessage.SetHeader (self : HttpMessage) (key value : Str) : HttpMessage :=
  { self with _headers := StdMap.modifyAt self._headers key (fun _ => value) }

/-- The member `HttpMessage::RemoveHeader`. -/
def HttpMessage.RemoveHeader (self : HttpMessage) (key : Str) : HttpMessage :=
  { self with _headers := StdMap.erase self._headers key }

/-- The member `HttpMessage::ClearHeader`. -/
def HttpMessage.ClearHeader (self : HttpMessage) : HttpMessage :=
  { self with _headers := [] }

/-- The member `HttpMessage::SetContent`. -/
def HttpMessage.SetContent (self : HttpMessage) (content : Str) : HttpMessage :=
  HttpMessage.SetHeader { self with _content := content } (lit "Content-Length")
    (to_string content.length)

/-- The member `HttpMessage::ClearContent`. -/
def HttpMessage.ClearContent (self : HttpMessage) : HttpMessage :=
  HttpMessage.SetHeader { self with _content := [] } (lit "Content-Length")
    (to_string ([] : Str).length)

/-- The member `HttpMessage::GetHeader`: the value, or the empty string when absent. -/
def HttpMessage.GetHeader (self : HttpMessage) (key : Str) : Str :=
  match StdMap.find self._headers key with
  | some v => v
  | none => []

/-- The member `HttpMessage::GetContentLength`. -/
def HttpMessage.GetContentLength (self : HttpMessage) : Nat := self._content.length

/-- The class `HttpRequest`, with `HttpRequest::HttpRequest() : _method(GET)`. -/
structure HttpRequest extends HttpMessage where
  _method : HttpMethod := HttpMethod.GET
  _uri : URI := {}
deriving DecidableEq, Repr

/-- The member `HttpRequest::SetMethod`. -/
def HttpRequest.SetMethod (self : HttpRequest) (method : HttpMethod) : HttpRequest :=
  { self with _method := method }

/-- The member `HttpRequest::SetURI`. -/
def HttpRequest.SetURI (self : HttpRequest) (uri : URI) : HttpRequest :=
  { self with _uri := uri }

/-- The member `HttpRequest::GetMethod`. -/
def HttpRequest.GetMethod (self : HttpRequest) : HttpMethod := self._method

/-- The member `HttpRequest::GetURI`. -/
def HttpRequest.GetURI (self : HttpRequest) : URI := self._uri

/-- The class `HttpResponse`, with `HttpResponse::HttpResponse() : _statusCode(OK)`. -/
structure HttpResponse extends HttpMessage where
  _statusCode : HttpStatusCode := HttpStatusCode.OK
deriving DecidableEq, Repr

/-- The constructor `HttpResponse::HttpResponse(HttpStatusCode statusCode)`. -/
def HttpResponse.ofStatus (statusCode : HttpStatusCode) : HttpResponse :=
  { _statusCode := statusCode }

/-- The member `HttpResponse::SetStatusCode`. -/
def HttpResponse.SetStatusCode (self : HttpResponse) (statusCode : HttpStatusCode) :
    HttpResponse :=
  { self with _statusCode := statusCode }

/-- The member `HttpResponse::GetStatusCode`. -/
def HttpResponse.GetStatusCode (self : HttpResponse) : HttpStatusCode := self._statusCode

/-- The inherited member `SetHeader` on a response. -/
def HttpResponse.SetHeader (self : HttpResponse) (key value : Str) : HttpResponse :=
  { self with toHttpMessage := self.toHttpMessage.SetHeader key value }

/-- The inherited member `RemoveHeader` on a response. -/
def HttpResponse.RemoveHeader (self : HttpResponse) (key : Str) : HttpResponse :=
  { self with toHttpMessage := self.toHttpMessage.RemoveHeader key }

/-- The inherited member `ClearHeader` on a response. -/
def HttpResponse.ClearHeader (self : HttpResponse) : HttpResponse :=
  { self with toHttpMessage := self.toHttpMessage.ClearHeader }

/-- The inherited member `SetContent` on a response. -/
def HttpResponse.SetContent (self : HttpResponse) (content : Str) : HttpResponse :=
  { self with toHttpMessage := self.toHttpMessage.SetContent content }

/-- The inherited member `ClearContent` on a response. -/
def HttpResponse.ClearContent (self : HttpResponse) : HttpResponse :=
  { self with toHttpMessage := self.toHttpMessage.ClearContent }

/-- The inherited member `GetHeader` on a response. -/
def HttpResponse.GetHeader (self : HttpResponse) (key : Str) : Str :=
  self.toHttpMessage.GetHeader key

/-- The inherited member `GetContentLength` on a response. -/
def HttpResponse.GetContentLength (self : HttpResponse) : Nat :=
  self.toHttpMessage.GetContentLength

/-! ## Exceptions -/

/-- A thrown C++ value, classified by the first `catch` clause of `HandleHttpData` whose type
it matches: `std::invalid_argument` (or derived from it), any other `std::logic_error`, any
other `std::exception` (`std::runtime_error` among them), or a value that is not derived from
`std::exception`. The string is `what()`. -/
inductive Exn where
  | invalid_argument (what : Str)
  | logic_error (what : Str)
  | exception (what : Str)
  | foreign
deriving DecidableEq, Repr

deriving instance DecidableEq for Except

/-- The message of `throw std::runtime_error(msg)`; `std::runtime_error` derives from
`std::exception` and not from `std::logic_error`. -/
def runtime_error (msg : String) : Exn := Exn.exception (lit msg)

/-! ## http_server.cpp: the route table -/

/-- The type `HttpRequestHandler_t`, a `std::function<HttpResponse(const HttpRequest&)>`:
a call returns a response or throws. -/
abbrev HttpRequestHandler_t := HttpRequest → Except Exn HttpResponse

/-- The member `_requestHandlers`. -/
abbrev RequestHandlers := StdMap URI (StdMap HttpMethod HttpRequestHandler_t)

/-- The member `HttpServer::HandleHttpRequest`. -/
def HandleHttpRequest (_requestHandlers : RequestHandlers) (request : HttpRequest) :
    Except Exn HttpResponse :=
  match StdMap.find _requestHandlers request.GetURI with
  | none => Except.ok (HttpResponse.ofStatus HttpStatusCode.NotFound)
  | some handlers =>
    match StdMap.find handlers request.GetMethod with
    | none => Except.ok (HttpResponse.ofStatus HttpStatusCode.MethodNotAllowed)
    | some callback => callback request

/-- The overload `HttpServer::RegisterHttpRequestHandler(const std::string&, ...)`:
`URI uri(path); uri.SetPath(path); _requestHandlers[uri].insert(make_pair(method, callback))`. -/
def RegisterHttpRequestHandler (_requestHandlers : RequestHandlers) (path : Str)
    (method : HttpMethod) (callback : HttpRequestHandler_t) : RequestHandlers :=
  let uri := URI.ofPath path
  let uri := uri.SetPath path
  StdMap.modifyAt _requestHandlers uri (fun handlers => StdMap.insert handlers method callback)

/-- The overload `HttpServer::RegisterHttpRequestHandler(const URI&, ...)`:
`URI formattedUri = uri; _requestHandlers[formattedUri].insert(make_pair(method, callback))`. -/
def RegisterHttpRequestHandlerURI (_requestHandlers : RequestHandlers) (uri : URI)
    (method : HttpMethod) (callback : HttpRequestHandler_t) : RequestHandlers :=
  let formattedUri := uri
  StdMap.modifyAt _requestHandlers formattedUri
    (fun handlers => StdMap.insert handlers method callback)

/-- The handler `HandleHttpRequest` would call for a key and method, when there is one. -/
def lookupHandler (_requestHandlers : RequestHandlers) (uri : URI) (method : HttpMethod) :
    Option HttpRequestHandler_t :=
  StdMap.find₂ _requestHandlers uri method

/-- Two bytes are equal, or one is an upper-case ASCII letter and the other is the same
letter in lower case. -/
def sameLetter (a b : Nat) : Bool :=
  a == b || (decide (65 ≤ a) && decide (a ≤ 90) && b == a + 32) ||
    (decide (65 ≤ b) && decide (b ≤ 90) && a == b + 32)

/-- Two strings differ only in the case of ASCII letters: same length, and at every
position the two bytes are the same letter. -/
def differOnlyInCase : Str → Str → Bool
  | [], [] => true
  | a :: as, b :: bs => sameLetter a b && differOnlyInCase as bs
  | _, _ => false

/-- One call of either registration overload. -/
inductive Registration where
  | byPath (path : Str) (method : HttpMethod) (callback : HttpRequestHandler_t)
  | byURI (uri : URI) (method : HttpMethod) (callback : HttpRequestHandler_t)

/-- The routing key a registration call stores its handler under. -/
def Registration.key : Registration → URI
  | .byPath path _ _ => URI.ofPath path
  | .byURI uri _ _ => uri

/-- The method of a registration call. -/
def Registration.method : Registration → HttpMethod
  | .byPath _ method _ => method
  | .byURI _ method _ => method

/-- The handler of a registration call. -/
def Registration.callback : Registration → HttpRequestHandler_t
  | .byPath _ _ callback => callback
  | .byURI _ _ callback => callback

/-- The route table after one more registration call. -/
def Registration.apply (_requestHandlers : RequestHandlers) : Registration → RequestHandlers
  | .byPath path method callback =>
    RegisterHttpRequestHandler _requestHandlers path method callback
  | .byURI uri method callback =>
    RegisterHttpRequestHandlerURI _requestHandlers uri method callback

/-- The route table of a server after a sequence of registration calls, in order. -/
def registerAll (regs : List Registration) : RequestHandlers :=
  regs.foldl Registration.apply []

/-- The handler `say_hello` of `main.cpp`. -/
def say_hello : HttpRequestHandler_t := fun _ =>
  let response := HttpResponse.ofStatus HttpStatusCode.OK
  let response := response.SetHeader (lit "Content-Type") (lit "text/plain")
  let response := response.SetContent (lit "Hello, world\n")
  Except.ok response

/-- The handler `send_html` of `main.cpp`. -/
def send_html : HttpRequestHandler_t := fun _ =>
  let response := HttpResponse.ofStatus HttpStatusCode.OK
  let content : Str := []
  let content := content ++ lit "<!doctype html>\n"
  let content := content ++ lit "<html>\n<body>\n\n"
  let content := content ++ lit "<h1>Hello, world in an Html page</h1>\n"
  let content := content ++ lit "<p>A Paragraph</p>\n\n"
  let content := content ++ lit "</body>\n</html>\n"
  let response := response.SetHeader (lit "Content-Type") (lit "text/html")
  let response := response.SetContent content
  Except.ok response

/-- The four registration calls of `main.cpp`, in order. -/
def mainRegistrations : List Registration :=
  [ Registration.byPath (lit "/") HttpMethod.HEAD say_hello,
    Registration.byPath (lit "/") HttpMethod.GET say_hello,
    Registration.byPath (lit "/hello.html") HttpMethod.HEAD send_html,
    Registration.byPath (lit "/hello.html") HttpMethod.GET send_html ]

/-- A request as the decoder leaves it: default-constructed, then `SetMethod` and `SetURI`
with a `URI` constructed from the request path. -/
def requestFor (method : HttpMethod) (path : Str) : HttpRequest :=
  (({} : HttpRequest).SetMethod method).SetURI (URI.ofPath path)

/-! ## The public mutators of a response -/

/-- One call of a public mutator of `HttpResponse`. -/
inductive Mutator where
  | SetHeader (key value : Str)
  | RemoveHeader (key : Str)
  | ClearHeader
  | SetContent (content : Str)
  | ClearContent
  | SetStatusCode (statusCode : HttpStatusCode)
deriving DecidableEq, Repr

/-- The response after one mutator call. -/
def Mutator.apply (r : HttpResponse) : Mutator → HttpResponse
  | .SetHeader key value => r.SetHeader key value
  | .RemoveHeader key => r.RemoveHeader key
  | .ClearHeader => r.ClearHeader
  | .SetContent content => r.SetContent content
  | .ClearContent => r.ClearContent
  | .SetStatusCode statusCode => r.SetStatusCode statusCode

/-- Whether a mutator call sets the body: `SetContent` or `ClearContent`. -/
def Mutator.setsBody : Mutator → Bool
  | .SetContent _ => true
  | .ClearContent => true
  | _ => false

/-- Whether a mutator call writes or removes the "Content-Length" entry of the header map
without setting the body: `SetHeader` or `RemoveHeader` with that key, or `ClearHeader`. -/
def Mutator.overridesContentLength : Mutator → Bool
  | .SetHeader key _ => decide (key = lit "Content-Length")
  | .RemoveHeader key => decide (key = lit "Content-Length")
  | .ClearHeader => true
  | .SetContent _ => false
  | .ClearContent => false
  | .SetStatusCode _ => false

/-! ## http_server.h: constants and the connection buffer -/

/-- The constant `kMaxBufferSize`. -/
def kMaxBufferSize : Nat := 4096

/-- The constant `HttpServer::kThreadPoolSize`. -/
def kThreadPoolSize : Nat := 5

/-- The range of `size_t` on the 64-bit target: values are taken modulo this. -/
def SIZE_MOD : Nat := 2 ^ 64

/-- The Linux value of `EPOLLIN` (sys/epoll.h). -/
def EPOLLIN : Nat := 1

/-- The Linux value of `EPOLLOUT`. -/
def EPOLLOUT : Nat := 4

/-- The Linux value of `EPOLL_CTL_ADD`. -/
def EPOLL_CTL_ADD : Nat := 1

/-- The Linux value of `EPOLL_CTL_DEL`. -/
def EPOLL_CTL_DEL : Nat := 2

/-- The Linux value of `EPOLL_CTL_MOD`. -/
def EPOLL_CTL_MOD : Nat := 3

/-- The Linux value of `EAGAIN`. -/
def EAGAIN : Nat := 11

/-- The Linux value of `EWOULDBLOCK` (the same as `EAGAIN`). -/
def EWOULDBLOCK : Nat := 11

/-- The struct `EventData`, with `EventData() : fd(0), length(0), cursor(0), buffer()`:
the array is value-initialised, all zero. -/
structure EventData where
  fd : Int := 0
  length : Nat := 0
  cursor : Nat := 0
  buffer : List Nat := List.replicate kMaxBufferSize 0
deriving DecidableEq, Repr

instance : Inhabited EventData := ⟨{}⟩

/-! ## The environment: heap, multiplexer, sockets -/

/-- The state outside the server object that the reactor code reads and writes.
* `heap`: the live `EventData` objects, by address (`new` and `delete`);
* `epoll`: for every epoll descriptor, its interest list, descriptor ↦ (event mask,
  `data.ptr`);
* `closed`: the descriptors passed to `close`, in order;
* `sent`: for every `send` call that succeeded, the descriptor and the bytes the kernel
  accepted, in order. -/
structure World where
  heap : StdMap Nat EventData := []
  epoll : StdMap Int (StdMap Int (Nat × Nat)) := []
  closed : List Int := []
  sent : List (Int × List Nat) := []
deriving DecidableEq, Repr

/-- An address no live object has (and not the null pointer): one past the largest. -/
def freshAddr (heap : StdMap Nat EventData) : Nat :=
  (heap.map Prod.fst).foldr max 0 + 1

/-- The expression `new EventData()`: the address of a fresh, value-initialised object. -/
def World.new (w : World) : Nat × World :=
  (freshAddr w.heap,
    { w with heap := StdMap.modifyAt w.heap (freshAddr w.heap) (fun _ => ({} : EventData)) })

/-- The object a pointer points to, when it is live. -/
def World.deref (w : World) (p : Nat) : Option EventData := StdMap.find w.heap p

/-- A write through a pointer: the object at `p` becomes `e`. -/
def World.store (w : World) (p : Nat) (e : EventData) : World :=
  { w with heap := StdMap.modifyAt w.heap p (fun _ => e) }

/-- The statement `delete p`. -/
def World.delete (w : World) (p : Nat) : World :=
  { w with heap := StdMap.erase w.heap p }

/-- The call `close(fd)`. -/
def World.close (w : World) (fd : Int) : World :=
  { w with closed := w.closed ++ [fd] }

/-- The registration of a descriptor with an epoll instance: its event mask and `data.ptr`. -/
def World.interest (w : World) (epollFd fd : Int) : Option (Nat × Nat) :=
  StdMap.find₂ w.epoll epollFd fd

/-- The bytes the kernel has accepted for a descriptor so far, in order. -/
def World.stream (w : World) (fd : Int) : List Nat :=
  ((w.sent.filter (fun c => decide (c.1 = fd))).map Prod.snd).flatten

/-- The system call `epoll_ctl` (epoll_ctl(2)), with the return value: `-1` when `epfd` is
not an epoll instance (EBADF), when `EPOLL_CTL_ADD` names a descriptor that is already
registered with the instance (EEXIST), when `EPOLL_CTL_MOD` or `EPOLL_CTL_DEL` names one
that is not (ENOENT), or when the operation is unknown (EINVAL); the kernel is taken not to
run out of memory or watches. -/
def epoll_ctl (w : World) (epfd : Int) (op : Nat) (fd : Int) (event : Nat × Nat) :
    Int × World :=
  match StdMap.find w.epoll epfd with
  | none => (-1, w)
  | some interest =>
    if op = EPOLL_CTL_ADD then
      match StdMap.find interest fd with
      | some _ => (-1, w)
      | none =>
        (0, { w with
          epoll := StdMap.modifyAt w.epoll epfd (fun l => StdMap.insert l fd event) })
    else if op = EPOLL_CTL_MOD then
      match StdMap.find interest fd with
      | none => (-1, w)
      | some _ =>
        (0, { w with
          epoll := StdMap.modifyAt w.epoll epfd
            (fun l => StdMap.modifyAt l fd (fun _ => event)) })
    else if op = EPOLL_CTL_DEL then
      match StdMap.find interest fd with
      | none => (-1, w)
      | some _ =>
        (0, { w with epoll := StdMap.modifyAt w.epoll epfd (fun l => StdMap.erase l fd) })
    else (-1, w)

/-- What the kernel answers to the one `recv` call of a readable event: `data bytes` when
`bytes` are waiting in the receive queue (none waiting and no error: the peer has shut
down, `recv` returns 0), `error errno` when the call returns `-1`. -/
inductive RecvOutcome where
  | data (bytes : List Nat)
  | error (errno : Nat)
deriving DecidableEq, Repr

/-- What the kernel answers to the one `send` call of a writable event: `room n` when it
has room for `n` bytes, `error errno` when the call returns `-1`. -/
inductive SendOutcome where
  | room (n : Nat)
  | error (errno : Nat)
deriving DecidableEq, Repr

/-- The system call `recv(fd, buffer, len, 0)`: the return value, `errno`, and the buffer
afterwards. At most `len` bytes are taken, and they overwrite the front of the buffer. -/
def recv (buffer : List Nat) (len : Nat) : RecvOutcome → Int × Nat × List Nat
  | .data bytes =>
    let n := min bytes.length len
    ((n : Int), 0, bytes.take n ++ buffer.drop n)
  | .error errno => (-1, errno, buffer)

/-- The system call `send(fd, buf, len, 0)`: the return value and `errno`. At most `len`
bytes are accepted. -/
def send (len : Nat) : SendOutcome → Int × Nat
  | .room n => ((min n len : Nat), 0)
  | .error errno => (-1, errno)

/-- A fault that ends a call: a thrown C++ exception, or behaviour the language leaves
undefined (here: a read through a pointer to no live object). -/
inductive Fault where
  | thrown (e : Exn)
  | undefined
deriving DecidableEq, Repr

/-! ## serialize.h -/

/-- The templates `FromString<HttpRequest>` and `ToString<HttpResponse>` are declared in
`serialize.h` and defined outside the sources: they are parameters here. `FromString`
returns a request or throws. -/
structure Codec where
  FromString : Str → Except Exn HttpRequest
  ToString : HttpResponse → Str

/-- The members of `HttpServer` the reactor code reads. -/
structure HttpServer where
  _requestHandlers : RequestHandlers := []
  _workerEpollFd : Nat → Int
  codec : Codec

/-! ## http_server.cpp: the reactor -/

/-- The member `HttpServer::ControlEpollEvent`. -/
def ControlEpollEvent (w : World) (epollFd : Int) (op : Nat) (fd : Int) (events : Nat)
    (data : Nat) : Except Fault World :=
  if op = EPOLL_CTL_DEL then
    let r := epoll_ctl w epollFd op fd (0, 0)
    if r.1 < 0 then
      Except.error (Fault.thrown (runtime_error "Failed to remove file descriptor"))
    else Except.ok r.2
  else
    let r := epoll_ctl w epollFd op fd (events, data)
    if r.1 < 0 then
      Except.error (Fault.thrown (runtime_error "Failed to add file descriptor"))
    else Except.ok r.2

/-- The constructor `std::string(const char*)` on a buffer: the bytes before the first zero
byte. (A buffer without a zero byte is read past its end in the source; the embedding stops
at the end of the buffer.) -/
def cstr (buffer : List Nat) : Str := buffer.takeWhile (fun b => decide (b ≠ 0))

/-- The body of the `try` block of `HandleHttpData`: decode, then dispatch. -/
def HandleHttpData.tryBody (srv : HttpServer) (requestString : Str) :
    Except Exn HttpResponse :=
  (srv.codec.FromString requestString).bind
    (fun httpRequest => HandleHttpRequest srv._requestHandlers httpRequest)

/-- The `try` block of `HandleHttpData` with its three `catch` clauses: the response to
encode, or the exception that none of the clauses catches. -/
def HandleHttpData.respond (srv : HttpServer) (requestString : Str) :
    Except Exn HttpResponse :=
  match HandleHttpData.tryBody srv requestString with
  | Except.ok httpResponse => Except.ok httpResponse
  | Except.error (Exn.invalid_argument what) =>
    Except.ok ((HttpResponse.ofStatus HttpStatusCode.BadRequest).SetContent what)
  | Except.error (Exn.logic_error what) =>
    Except.ok ((HttpResponse.ofStatus HttpStatusCode.HttpVersionNotSupported).SetContent what)
  | Except.error (Exn.exception what) =>
    Except.ok ((HttpResponse.ofStatus HttpStatusCode.InternalServerError).SetContent what)
  | Except.error Exn.foreign => Except.error Exn.foreign

/-- The call `memcpy(buffer, responseString.c_str(), kMaxBufferSize)`: exactly
`kMaxBufferSize` bytes are copied, the string's bytes, its terminating zero, and then
whatever lies in memory after the terminator (`beyond`, by offset). -/
def memcpyResponse (responseString : Str) (beyond : Nat → Nat) : List Nat :=
  (responseString ++ 0 :: (List.range kMaxBufferSize).map beyond).take kMaxBufferSize

/-- The member `HttpServer::HandleHttpData`: the response object afterwards. -/
def HandleHttpData (srv : HttpServer) (beyond : Nat → Nat) (rawRequest : EventData)
    (rawResponse : EventData) : Except Exn EventData :=
  let requestString := cstr rawRequest.buffer
  (HandleHttpData.respond srv requestString).map (fun httpResponse =>
    let responseString := srv.codec.ToString httpResponse
    { rawResponse with
      buffer := memcpyResponse responseString beyond
      length := responseString.length % SIZE_MOD })

/-- The environment's part in one `HandleEpollEvent` call. -/
structure Event where
  epollFd : Int
  data : Nat
  events : Nat
  rx : RecvOutcome := RecvOutcome.error EAGAIN
  tx : SendOutcome := SendOutcome.error EAGAIN
  beyond : Nat → Nat := fun _ => 0

/-- The member `HttpServer::HandleEpollEvent`. -/
def HandleEpollEvent (srv : HttpServer) (w : World) (ev : Event) : Except Fault World :=
  let epollFd := ev.epollFd
  match w.deref ev.data with
  | none => Except.error Fault.undefined
  | some d =>
    let fd := d.fd
    if ev.events = EPOLLIN then
      let request := ev.data
      let r := recv d.buffer kMaxBufferSize ev.rx
      let byteCount := r.1
      let errno := r.2.1
      let w := w.store request { d with buffer := r.2.2 }
      if byteCount > 0 then
        let (response, w) := w.new
        let w := w.store response { ({} : EventData) with fd := fd }
        match HandleHttpData srv ev.beyond { d with buffer := r.2.2 }
            { ({} : EventData) with fd := fd } with
        | Except.error e => Except.error (Fault.thrown e)
        | Except.ok filled =>
          let w := w.store response filled
          (ControlEpollEvent w epollFd EPOLL_CTL_MOD fd EPOLLOUT response).map
            (fun w => w.delete request)
      else if byteCount = 0 then
        (ControlEpollEvent w epollFd EPOLL_CTL_DEL fd 0 0).map
          (fun w => (w.close fd).delete request)
      else
        if errno = EAGAIN ∨ errno = EWOULDBLOCK then
          let w := w.store request { d with buffer := r.2.2, fd := fd }
          ControlEpollEvent w epollFd EPOLL_CTL_MOD fd EPOLLIN request
        else
          (ControlEpollEvent w epollFd EPOLL_CTL_DEL fd 0 0).map
            (fun w => (w.close fd).delete request)
    else
      let response := ev.data
      let r := send d.length ev.tx
      let byteCount := r.1
      let errno := r.2
      if byteCount ≥ 0 then
        let w := { w with
          sent := w.sent ++ [(fd, (d.buffer.drop d.cursor).take byteCount.toNat)] }
        if byteCount.toNat < d.length then
          let w := w.store response
            { d with
              cursor := (d.cursor + byteCount.toNat) % SIZE_MOD
              length := d.length - byteCount.toNat }
          ControlEpollEvent w epollFd EPOLL_CTL_MOD fd EPOLLOUT response
        else
          let (request, w) := w.new
          let w := w.store request { ({} : EventData) with fd := fd }
          (ControlEpollEvent w epollFd EPOLL_CTL_MOD fd EPOLLIN request).map
            (fun w => w.delete response)
      else
        if errno = EAGAIN ∨ errno = EWOULDBLOCK then
          ControlEpollEvent w epollFd EPOLL_CTL_ADD fd EPOLLOUT response
        else
          (ControlEpollEvent w epollFd EPOLL_CTL_DEL fd 0 0).map
            (fun w => (w.close fd).delete response)

/-- A sequence of `HandleEpollEvent` calls, one after the other; a fault ends it. -/
def runEvents (srv : HttpServer) : World → List Event → Except Fault World
  | w, [] => Except.ok w
  | w, ev :: rest =>
    match HandleEpollEvent srv w ev with
    | Except.error e => Except.error e
    | Except.ok w₁ => runEvents srv w₁ rest

/-- The loop of `HttpServer::Listen`, one iteration per `accept4` call; `accepts` lists what
the calls return while `_running` holds (a negative value: no connection, or an error). The
sleep of an idle iteration has no effect on the state. -/
def Listen.loop (srv : HttpServer) :
    List Int → Nat → Bool → World → Except Fault World
  | [], _, _, w => Except.ok w
  | clientFd :: rest, currentWorker, _active, w =>
    if clientFd < 0 then
      Listen.loop srv rest currentWorker false w
    else
      let (clientData, w) := w.new
      let w := w.store clientData { ({} : EventData) with fd := clientFd }
      match ControlEpollEvent w (srv._workerEpollFd currentWorker) EPOLL_CTL_ADD clientFd
          EPOLLIN clientData with
      | Except.error e => Except.error e
      | Except.ok w =>
        let currentWorker := currentWorker + 1
        let currentWorker := if currentWorker = kThreadPoolSize then 0 else currentWorker
        Listen.loop srv rest currentWorker true w

/-- The member `HttpServer::Listen`: `currentWorker = 0`, `active = true`, then the loop. -/
def Listen (srv : HttpServer) (accepts : List Int) (w : World) : Except Fault World :=
  Listen.loop srv accepts 0 true w

/-- The state after `HttpServer::SetUpEpoll`: each `epoll_create1(0)` call has returned the
descriptor `_workerEpollFd[i]` of a new instance with an empty interest list. -/
def SetUpEpoll (srv : HttpServer) (w : World) : World :=
  { w with
    epoll := (List.range kThreadPoolSize).foldl
      (fun m i => StdMap.modifyAt m (srv._workerEpollFd i) (fun _ => [])) w.epoll }

/-- A stand-in for the codec, for concrete traces: the request string is taken as the path
of a `GET` request (an empty one is malformed), and a response is encoded as its status
number, a line feed, and its body. -/
def exampleCodec : Codec where
  FromString := fun s =>
    if s = [] then Except.error (Exn.invalid_argument (lit "empty request"))
    else Except.ok (requestFor HttpMethod.GET s)
  ToString := fun r => to_string r.GetStatusCode.code ++ lit "\n" ++ r._content

/-- The server of `main.cpp` with the stand-in codec; the five epoll instances have the
descriptors 3..7. -/
def exampleServer : HttpServer where
  _requestHandlers := registerAll mainRegistrations
  _workerEpollFd := fun i => 3 + i
  codec := exampleCodec

/-- The state once `exampleServer` has set up its multiplexers and `Listen` has accepted one
connection, descriptor 20: it is registered with worker 0 (epoll descriptor 3) and its
buffer is the object at address 1. -/
def exampleAccepted : Except Fault World :=
  Listen exampleServer [20] (SetUpEpoll exampleServer {})

/-- The readable event on the accepted connection with the request bytes `/` received; the
response buffer is allocated at address 2. -/
def exampleRead : Event :=
  { epollFd := 3, data := 1, events := EPOLLIN, rx := RecvOutcome.data (lit "/") }

/-- The state `exampleAccepted` holds, written out: descriptor 20 registered for `EPOLLIN`
with worker 0, its fresh buffer at address 1. -/
def exampleWorld : World :=
  { heap := [(1, { fd := 20 })],
    epoll := [(3, [(20, (EPOLLIN, 1))]), (4, []), (5, []), (6, []), (7, [])] }

/-- The writable events of one connection, one per `send` call: the kernel has room for
`s` bytes at the call that `s` stands for. -/
def writeEvents (epollFd : Int) (data : Nat) (sends : List Nat) : List Event :=
  sends.map (fun s =>
    { epollFd := epollFd, data := data, events := EPOLLOUT, tx := SendOutcome.room s })

/-- A state in which a response is about to be written: descriptor 20 registered for
`EPOLLOUT` with worker 0, and at address 2 a buffer holding the 17 response bytes
`200\nHello, world\n`, none of them sent yet. -/
def exampleWriting : World :=
  { heap := [(2, { fd := 20, length := 17, cursor := 0,
                   buffer := lit "200\nHello, world\n" ++ List.replicate 4079 0 })],
    epoll := [(3, [(20, (EPOLLOUT, 2))]), (4, []), (5, []), (6, []), (7, [])] }

/-- The descriptors of the successful `accept4` calls of a run, in order: those that are
not negative. -/
def accepted (accepts : List Int) : List Int :=
  accepts.filter (fun clientFd => !decide (clientFd < 0))

/-! ## The read phase of a connection -/

/-- The local `requestString` of `HandleHttpData`, the argument of `FromString`:
`std::string requestString(rawRequest.buffer)`, which reads the buffer up to its first zero
byte whatever the byte count `recv` returned. -/
def HandleHttpData.requestString (rawRequest : EventData) : Str := cstr rawRequest.buffer

/-- The readable event of a connection at which `recv` delivers `bytes`. -/
def readEvent (epollFd : Int) (data : Nat) (bytes : List Nat) (beyond : Nat → Nat) : Event :=
  { epollFd := epollFd, data := data, events := EPOLLIN, rx := RecvOutcome.data bytes,
    beyond := beyond }

/-- The readable event of a connection at which `recv` returns `-1` with `errno`. -/
def readError (epollFd : Int) (data : Nat) (errno : Nat) : Event :=
  { epollFd := epollFd, data := data, events := EPOLLIN, rx := RecvOutcome.error errno }

/-- The ways the code brings a connection to AwaitingRead and keeps it there:
`accepted`, one iteration of `Listen` with a successful `accept4`; `written`, a writable
event on a connection registered for `EPOLLOUT` with its response at which the kernel
accepts the whole remainder; `wouldBlock`, a readable event in AwaitingRead at which `recv`
would block; `otherEvent`, a `HandleEpollEvent` call for another connection (another buffer
object, and another descriptor or another epoll instance); `otherAccepted`, an iteration of
`Listen` that accepts another descriptor or none. The last index is the `data.ptr` the
multiplexer holds for the descriptor. -/
inductive AwaitingRead (srv : HttpServer) : World → Int → Int → Nat → Prop where
  | accepted (w w' : World) (clientFd : Int) (currentWorker : Nat) (active : Bool)
      (events data : Nat) :
      ¬ clientFd < 0 →
      Listen.loop srv [clientFd] currentWorker active w = Except.ok w' →
      w'.interest (srv._workerEpollFd currentWorker) clientFd = some (events, data) →
      AwaitingRead srv w' (srv._workerEpollFd currentWorker) clientFd data
  | written (w w' : World) (ev : Event) (response : EventData) (s events data : Nat) :
      w.interest ev.epollFd response.fd = some (EPOLLOUT, ev.data) →
      w.deref ev.data = some response →
      ev.events = EPOLLOUT → ev.tx = SendOutcome.room s → response.length ≤ s →
      HandleEpollEvent srv w ev = Except.ok w' →
      w'.interest ev.epollFd response.fd = some (events, data) →
      AwaitingRead srv w' ev.epollFd response.fd data
  | wouldBlock (w w' : World) (epollFd fd : Int) (data errno : Nat) :
      AwaitingRead srv w epollFd fd data →
      errno = EAGAIN ∨ errno = EWOULDBLOCK →
      HandleEpollEvent srv w (readError epollFd data errno) = Except.ok w' →
      AwaitingRead srv w' epollFd fd data
  | otherEvent (w w' : World) (epollFd fd : Int) (data : Nat) (ev : Event)
      (other : EventData) :
      AwaitingRead srv w epollFd fd data →
      w.deref ev.data = some other → ev.data ≠ data →
      ¬ (ev.epollFd = epollFd ∧ other.fd = fd) →
      HandleEpollEvent srv w ev = Except.ok w' →
      AwaitingRead srv w' epollFd fd data
  | otherAccepted (w w' : World) (epollFd fd : Int) (data : Nat) (clientFd : Int)
      (currentWorker : Nat) (active : Bool) :
      AwaitingRead srv w epollFd fd data →
      clientFd ≠ fd →
      Listen.loop srv [clientFd] currentWorker active w = Except.ok w' →
      AwaitingRead srv w' epollFd fd data

/-- A connection as a state predicate: the descriptor is registered with mask and pointer
`reg`, and the object at address `data` is `x`. -/
def World.has (w : World) (epollFd fd : Int) (reg : Nat × Nat) (data : Nat) (x : EventData) :
    Prop :=
  w.interest epollFd fd = some reg ∧ w.deref data = some x

/-! # Theorems -/

/-! ## std::map and string facts -/

theorem StdMap.find_modifyAt_self {K V : Type} [DecidableEq K] [Inhabited V]
    (m : StdMap K V) (k : K) (f : V → V) :
    StdMap.find (StdMap.modifyAt m k f) k = some (f ((StdMap.find m k).getD default)) := by
  induction m with
  | nil => simp [StdMap.modifyAt, StdMap.find]
  | cons e rest ih =>
    obtain ⟨k', v⟩ := e
    by_cases h : k' = k
    · simp [StdMap.modifyAt, StdMap.find, h]
    · simp [StdMap.modifyAt, StdMap.find, h, ih]

theorem StdMap.find_modifyAt_of_ne {K V : Type} [DecidableEq K] [Inhabited V]
    (m : StdMap K V) (k k₂ : K) (f : V → V) (hne : k ≠ k₂) :
    StdMap.find (StdMap.modifyAt m k f) k₂ = StdMap.find m k₂ := by
  induction m with
  | nil => simp [StdMap.modifyAt, StdMap.find, hne]
  | cons e rest ih =>
    obtain ⟨k', v⟩ := e
    by_cases h : k' = k
    · subst h
      simp [StdMap.modifyAt, StdMap.find, hne]
    · by_cases h₂ : k' = k₂
      · subst h₂
        simp [StdMap.modifyAt, StdMap.find, h]
      · simp [StdMap.modifyAt, StdMap.find, h, h₂, ih]

theorem StdMap.find_append_single {K V : Type} [DecidableEq K]
    (m : StdMap K V) (k k₂ : K) (v : V) :
    StdMap.find (m ++ [(k, v)]) k₂ =
      match StdMap.find m k₂ with
      | some w => some w
      | none => if k = k₂ then some v else none := by
  induction m with
  | nil => simp [StdMap.find]
  | cons e rest ih =>
    obtain ⟨k', w⟩ := e
    by_cases h : k' = k₂
    · simp [StdMap.find, h]
    · simp [StdMap.find, h, ih]

theorem StdMap.find_insert_self {K V : Type} [DecidableEq K]
    (m : StdMap K V) (k : K) (v : V) :
    StdMap.find (StdMap.insert m k v) k = some ((StdMap.find m k).getD v) := by
  unfold StdMap.insert
  cases h : StdMap.find m k with
  | some w => simp [h]
  | none => simp [StdMap.find_append_single, h]

theorem StdMap.find_insert_of_ne {K V : Type} [DecidableEq K]
    (m : StdMap K V) (k k₂ : K) (v : V) (hne : k ≠ k₂) :
    StdMap.find (StdMap.insert m k v) k₂ = StdMap.find m k₂ := by
  unfold StdMap.insert
  cases h : StdMap.find m k with
  | some w => simp
  | none =>
    simp only [StdMap.find_append_single]
    cases StdMap.find m k₂ <;> simp [hne]

theorem StdMap.find_erase {K V : Type} [DecidableEq K]
    (m : StdMap K V) (k k₂ : K) :
    StdMap.find (StdMap.erase m k) k₂ = if k₂ = k then none else StdMap.find m k₂ := by
  induction m with
  | nil => simp [StdMap.erase, StdMap.find]
  | cons e rest ih =>
    obtain ⟨k', w⟩ := e
    unfold StdMap.erase at ih ⊢
    by_cases h : k' = k
    · subst h
      by_cases h₂ : k₂ = k'
      · simp [List.filter, StdMap.find, h₂] at ih ⊢
        simpa [h₂] using ih
      · have h₃ : ¬ k' = k₂ := fun e => h₂ e.symm
        simp [List.filter, StdMap.find, h₂, h₃] at ih ⊢
        simpa [h₂] using ih
    · by_cases h₂ : k' = k₂
      · subst h₂
        simp [List.filter, StdMap.find, h]
      · simp only [List.filter, h, decide_False, Bool.not_false, StdMap.find, h₂, if_false]
        exact ih

theorem tolower_idem (c : Nat) : tolower (tolower c) = tolower c := by
  unfold tolower
  split_ifs <;> omega

theorem strLt_irrefl (a : Str) : strLt a a = false := by
  induction a with
  | nil => rfl
  | cons x xs ih => simp [strLt, ih]

theorem strLt_antisymm (a b : Str) (h₁ : strLt a b = false) (h₂ : strLt b a = false) :
    a = b := by
  induction a generalizing b with
  | nil =>
    cases b with
    | nil => rfl
    | cons y ys => simp [strLt] at h₁
  | cons x xs ih =>
    cases b with
    | nil => simp [strLt] at h₂
    | cons y ys =>
      simp only [strLt] at h₁ h₂
      by_cases hxy : x < y
      · simp [hxy] at h₁
      · by_cases hyx : y < x
        · simp [hyx] at h₂
        · simp only [hxy, hyx, if_false] at h₁ h₂
          have hx : x = y := by omega
          rw [hx, ih ys h₁ h₂]

/-- The key equivalence of `std::map<URI, _>` (induced by `URI::operator<`) is equality of the
stored paths, which is what `StdMap.find` searches with. -/
theorem URI.equiv_iff_eq (a b : URI) : URI.equiv a b = true ↔ a = b := by
  constructor
  · intro h
    simp only [URI.equiv, URI.lt, Bool.and_eq_true, Bool.not_eq_true'] at h
    cases a; cases b
    simp only [URI.mk.injEq]
    exact strLt_antisymm _ _ h.1 h.2
  · intro h
    subst h
    simp [URI.equiv, URI.lt, strLt_irrefl]

theorem sameLetter_tolower (a b : Nat) (h : sameLetter a b = true) :
    tolower a = tolower b := by
  simp only [sameLetter, Bool.or_eq_true, Bool.and_eq_true, decide_eq_true_eq,
    beq_iff_eq] at h
  unfold tolower
  split_ifs <;> omega

theorem differOnlyInCase_map_tolower (p q : Str) (h : differOnlyInCase p q = true) :
    p.map tolower = q.map tolower := by
  induction p generalizing q with
  | nil =>
    cases q with
    | nil => rfl
    | cons b bs => simp [differOnlyInCase] at h
  | cons a as ih =>
    cases q with
    | nil => simp [differOnlyInCase] at h
    | cons b bs =>
      simp only [differOnlyInCase, Bool.and_eq_true] at h
      simp only [List.map_cons, List.cons.injEq]
      exact ⟨sameLetter_tolower a b h.1, ih bs h.2⟩

theorem URI.ofPath_eq_of_differOnlyInCase (p q : Str) (h : differOnlyInCase p q = true) :
    URI.ofPath p = URI.ofPath q := by
  simp [URI.ofPath, URI.SetPath, differOnlyInCase_map_tolower p q h]

/-! ## Route table facts -/

theorem StdMap.find₂_modifyAt_insert {K K₂ V : Type} [DecidableEq K] [DecidableEq K₂]
    (hs : StdMap K (StdMap K₂ V)) (key uri : K) (method m : K₂) (callback : V) :
    StdMap.find₂ (StdMap.modifyAt hs key
        (fun handlers => StdMap.insert handlers method callback)) uri m =
      if key = uri ∧ method = m then some ((StdMap.find₂ hs uri m).getD callback)
      else StdMap.find₂ hs uri m := by
  unfold StdMap.find₂
  by_cases hk : key = uri
  · subst hk
    rw [StdMap.find_modifyAt_self]
    by_cases hm : method = m
    · subst hm
      cases hf : StdMap.find hs key with
      | none => simp [StdMap.find_insert_self, StdMap.find]
      | some handlers => simp [StdMap.find_insert_self]
    · cases hf : StdMap.find hs key with
      | none => simp [StdMap.find_insert_of_ne _ _ _ _ hm, hm, StdMap.find]
      | some handlers => simp [StdMap.find_insert_of_ne _ _ _ _ hm, hm]
  · rw [StdMap.find_modifyAt_of_ne _ _ _ _ hk]
    simp [hk]

theorem lookupHandler_modifyAt_insert (hs : RequestHandlers) (key uri : URI)
    (method m : HttpMethod) (callback : HttpRequestHandler_t) :
    lookupHandler (StdMap.modifyAt hs key
        (fun handlers => StdMap.insert handlers method callback)) uri m =
      if key = uri ∧ method = m then some ((lookupHandler hs uri m).getD callback)
      else lookupHandler hs uri m :=
  StdMap.find₂_modifyAt_insert hs key uri method m callback

theorem find_isSome_modifyAt {K V : Type} [DecidableEq K] [Inhabited V]
    (hs : StdMap K V) (key uri : K) (f : V → V) :
    (StdMap.find (StdMap.modifyAt hs key f) uri).isSome =
      (decide (key = uri) || (StdMap.find hs uri).isSome) := by
  by_cases hk : key = uri
  · subst hk
    simp [StdMap.find_modifyAt_self]
  · simp [StdMap.find_modifyAt_of_ne _ _ _ _ hk, hk]

theorem Registration.apply_eq (hs : RequestHandlers) (r : Registration) :
    Registration.apply hs r =
      StdMap.modifyAt hs r.key (fun handlers => StdMap.insert handlers r.method r.callback) := by
  cases r <;> rfl

theorem lookupHandler_foldl (regs : List Registration) (hs : RequestHandlers) (uri : URI)
    (m : HttpMethod) :
    lookupHandler (regs.foldl Registration.apply hs) uri m =
      match lookupHandler hs uri m with
      | some cb => some cb
      | none => (regs.find? (fun r => decide (r.key = uri ∧ r.method = m))).map
          Registration.callback := by
  induction regs generalizing hs with
  | nil => cases hl : lookupHandler hs uri m <;> simp [hl]
  | cons r rest ih =>
    simp only [List.foldl_cons]
    rw [ih, Registration.apply_eq, lookupHandler_modifyAt_insert]
    by_cases hr : r.key = uri ∧ r.method = m
    · cases hl : lookupHandler hs uri m <;> simp [hr, List.find?]
    · cases hl : lookupHandler hs uri m <;> simp [hr, List.find?]

theorem find_isSome_foldl (regs : List Registration) (hs : RequestHandlers) (uri : URI) :
    (StdMap.find (regs.foldl Registration.apply hs) uri).isSome =
      ((StdMap.find hs uri).isSome || regs.any (fun r => decide (r.key = uri))) := by
  induction regs generalizing hs with
  | nil => simp
  | cons r rest ih =>
    simp only [List.foldl_cons, List.any_cons]
    rw [ih, Registration.apply_eq, find_isSome_modifyAt]
    cases (StdMap.find hs uri).isSome <;> simp

theorem HandleHttpRequest_eq (hs : RequestHandlers) (request : HttpRequest) :
    HandleHttpRequest hs request =
      match lookupHandler hs request.GetURI request.GetMethod with
      | some cb => cb request
      | none =>
        if (StdMap.find hs request.GetURI).isSome then
          Except.ok (HttpResponse.ofStatus HttpStatusCode.MethodNotAllowed)
        else Except.ok (HttpResponse.ofStatus HttpStatusCode.NotFound) := by
  unfold HandleHttpRequest lookupHandler StdMap.find₂
  cases h₁ : StdMap.find hs request.GetURI with
  | none => simp
  | some handlers =>
    cases h₂ : StdMap.find handlers request.GetMethod <;> simp [h₂]

/-! ## Heap and multiplexer facts -/

theorem StdMap.find_set {K V : Type} [DecidableEq K] [Inhabited V]
    (m : StdMap K V) (k k₂ : K) (v : V) :
    StdMap.find (StdMap.modifyAt m k (fun _ => v)) k₂ =
      if k = k₂ then some v else StdMap.find m k₂ := by
  by_cases h : k = k₂
  · subst h
    simp [StdMap.find_modifyAt_self]
  · simp [StdMap.find_modifyAt_of_ne _ _ _ _ h, h]

theorem StdMap.modifyAt_same {K V : Type} [DecidableEq K] [Inhabited V]
    (m : StdMap K V) (k : K) (v : V) (h : StdMap.find m k = some v) :
    StdMap.modifyAt m k (fun _ => v) = m := by
  induction m with
  | nil => simp [StdMap.find] at h
  | cons e rest ih =>
    obtain ⟨k', v'⟩ := e
    by_cases hk : k' = k
    · simp only [StdMap.find, hk, if_true, Option.some.injEq] at h
      simp [StdMap.modifyAt, hk, h]
    · simp only [StdMap.find, hk, if_false] at h
      simp [StdMap.modifyAt, hk, ih h]

theorem StdMap.find₂_modifyAt_set {K K₂ V : Type} [DecidableEq K] [DecidableEq K₂]
    [Inhabited V] (m : StdMap K (StdMap K₂ V)) (k q : K) (k₂ q₂ : K₂) (v : V)
    (hk : (StdMap.find m k).isSome = true) :
    StdMap.find₂ (StdMap.modifyAt m k (fun l => StdMap.modifyAt l k₂ (fun _ => v))) q q₂ =
      if k = q ∧ k₂ = q₂ then some v else StdMap.find₂ m q q₂ := by
  unfold StdMap.find₂
  by_cases h : k = q
  · subst h
    rw [StdMap.find_modifyAt_self]
    cases hf : StdMap.find m k with
    | none => simp [hf] at hk
    | some l =>
      simp only [Option.getD_some, Option.some_bind, StdMap.find_set, true_and]
  · rw [StdMap.find_modifyAt_of_ne _ _ _ _ h]
    simp [h]

theorem StdMap.find₂_modifyAt_erase {K K₂ V : Type} [DecidableEq K] [DecidableEq K₂]
    (m : StdMap K (StdMap K₂ V)) (k q : K) (k₂ q₂ : K₂)
    (hk : (StdMap.find m k).isSome = true) :
    StdMap.find₂ (StdMap.modifyAt m k (fun l => StdMap.erase l k₂)) q q₂ =
      if k = q ∧ k₂ = q₂ then none else StdMap.find₂ m q q₂ := by
  unfold StdMap.find₂
  by_cases h : k = q
  · subst h
    rw [StdMap.find_modifyAt_self]
    cases hf : StdMap.find m k with
    | none => simp [hf] at hk
    | some l =>
      simp only [Option.getD_some, Option.some_bind, StdMap.find_erase, true_and]
      by_cases h₂ : k₂ = q₂
      · subst h₂
        simp
      · have h₃ : ¬ q₂ = k₂ := fun e => h₂ e.symm
        simp [h₂, h₃]
  · rw [StdMap.find_modifyAt_of_ne _ _ _ _ h]
    simp [h]

theorem le_foldr_max (l : List Nat) (x : Nat) (h : x ∈ l) : x ≤ l.foldr max 0 := by
  induction l with
  | nil => simp at h
  | cons y ys ih =>
    simp only [List.foldr_cons]
    rcases List.mem_cons.mp h with rfl | h'
    · exact le_max_left _ _
    · exact le_trans (ih h') (le_max_right _ _)

theorem StdMap.mem_keys_of_find {K V : Type} [DecidableEq K] (m : StdMap K V) (k : K) (v : V)
    (h : StdMap.find m k = some v) : k ∈ m.map Prod.fst := by
  induction m with
  | nil => simp [StdMap.find] at h
  | cons e rest ih =>
    obtain ⟨k', v'⟩ := e
    by_cases hk : k' = k
    · simp [hk]
    · simp only [StdMap.find, hk, if_false] at h
      simp [ih h]

theorem lt_freshAddr_of_find (heap : StdMap Nat EventData) (p : Nat) (e : EventData)
    (h : StdMap.find heap p = some e) : p < freshAddr heap := by
  have := le_foldr_max _ _ (StdMap.mem_keys_of_find heap p e h)
  unfold freshAddr
  omega

theorem find_freshAddr (heap : StdMap Nat EventData) :
    StdMap.find heap (freshAddr heap) = none := by
  cases h : StdMap.find heap (freshAddr heap) with
  | none => rfl
  | some e => exact absurd (lt_freshAddr_of_find heap _ e h) (lt_irrefl _)

theorem World.deref_store (w : World) (p q : Nat) (e : EventData) :
    (w.store p e).deref q = if p = q then some e else w.deref q := by
  simp [World.store, World.deref, StdMap.find_set]

theorem World.deref_delete (w : World) (p q : Nat) :
    (w.delete p).deref q = if q = p then none else w.deref q := by
  simp [World.delete, World.deref, StdMap.find_erase]

theorem World.deref_new (w : World) (q : Nat) :
    w.new.2.deref q = if w.new.1 = q then some {} else w.deref q := by
  simp [World.new, World.deref, StdMap.find_set]

theorem World.new_ne_of_deref (w : World) (p : Nat) (e : EventData)
    (h : w.deref p = some e) : w.new.1 ≠ p := by
  have := lt_freshAddr_of_find w.heap p e h
  simp only [World.new]
  omega

theorem World.store_same (w : World) (p : Nat) (e : EventData) (h : w.deref p = some e) :
    w.store p e = w := by
  cases w
  simp only [World.store, World.deref] at h ⊢
  rw [StdMap.modifyAt_same _ _ _ h]

/-- The outcome of `ControlEpollEvent` with `EPOLL_CTL_MOD` on a registered descriptor. -/
theorem ControlEpollEvent_mod (w : World) (epollFd fd : Int) (events data : Nat)
    (old : Nat × Nat) (hreg : w.interest epollFd fd = some old) :
    ControlEpollEvent w epollFd EPOLL_CTL_MOD fd events data =
      Except.ok { w with
        epoll := StdMap.modifyAt w.epoll epollFd
          (fun l => StdMap.modifyAt l fd (fun _ => (events, data))) } := by
  unfold World.interest StdMap.find₂ at hreg
  cases hf : StdMap.find w.epoll epollFd with
  | none => simp [hf] at hreg
  | some l =>
    simp only [hf, Option.some_bind] at hreg
    simp [ControlEpollEvent, epoll_ctl, hf, hreg, EPOLL_CTL_MOD, EPOLL_CTL_DEL, EPOLL_CTL_ADD]

/-- The outcome of `ControlEpollEvent` with `EPOLL_CTL_ADD` on a registered descriptor:
`epoll_ctl` fails and the call throws. -/
theorem ControlEpollEvent_add_registered (w : World) (epollFd fd : Int) (events data : Nat)
    (old : Nat × Nat) (hreg : w.interest epollFd fd = some old) :
    ControlEpollEvent w epollFd EPOLL_CTL_ADD fd events data =
      Except.error (Fault.thrown (runtime_error "Failed to add file descriptor")) := by
  unfold World.interest StdMap.find₂ at hreg
  cases hf : StdMap.find w.epoll epollFd with
  | none => simp [hf] at hreg
  | some l =>
    simp only [hf, Option.some_bind] at hreg
    simp [ControlEpollEvent, epoll_ctl, hf, hreg, EPOLL_CTL_DEL, EPOLL_CTL_ADD]

/-- The outcome of `ControlEpollEvent` with `EPOLL_CTL_ADD` on a descriptor that is not yet
registered with an existing instance. -/
theorem ControlEpollEvent_add_new (w : World) (epollFd fd : Int) (events data : Nat)
    (l : StdMap Int (Nat × Nat)) (hinst : StdMap.find w.epoll epollFd = some l)
    (hfree : w.interest epollFd fd = none) :
    ControlEpollEvent w epollFd EPOLL_CTL_ADD fd events data =
      Except.ok { w with
        epoll := StdMap.modifyAt w.epoll epollFd
          (fun l => StdMap.insert l fd (events, data)) } := by
  unfold World.interest StdMap.find₂ at hfree
  simp only [hinst, Option.some_bind] at hfree
  simp [ControlEpollEvent, epoll_ctl, hinst, hfree, EPOLL_CTL_DEL, EPOLL_CTL_ADD]

theorem World.interest_mod (w : World) (epollFd fd q : Int) (q₂ : Int) (ev : Nat × Nat)
    (old : Nat × Nat) (hreg : w.interest epollFd fd = some old) :
    World.interest { w with
        epoll := StdMap.modifyAt w.epoll epollFd
          (fun l => StdMap.modifyAt l fd (fun _ => ev)) } q q₂ =
      if epollFd = q ∧ fd = q₂ then some ev else w.interest q q₂ := by
  unfold World.interest at hreg ⊢
  apply StdMap.find₂_modifyAt_set
  unfold StdMap.find₂ at hreg
  cases hf : StdMap.find w.epoll epollFd with
  | none => simp [hf] at hreg
  | some l => rfl

/-! ## Would-block results -/

theorem StdMap.modifyAt_id {K V : Type} [DecidableEq K] [Inhabited V]
    (m : StdMap K V) (k : K) (f : V → V) (v : V) (h : StdMap.find m k = some v)
    (hf : f v = v) : StdMap.modifyAt m k f = m := by
  induction m with
  | nil => simp [StdMap.find] at h
  | cons e rest ih =>
    obtain ⟨k', v'⟩ := e
    by_cases hk : k' = k
    · simp only [StdMap.find, hk, if_true, Option.some.injEq] at h
      subst h
      simp [StdMap.modifyAt, hk, hf]
    · simp only [StdMap.find, hk, if_false] at h
      simp [StdMap.modifyAt, hk, ih h]

/-- A would-block `recv` on a connection registered for `EPOLLIN` with its buffer leaves the
whole state as it was: nothing closed, nothing released, the same registration. -/
theorem HandleEpollEvent_recv_would_block (srv : HttpServer) (w : World) (ev : Event)
    (d : EventData) (errno : Nat) (hlive : w.deref ev.data = some d)
    (hreg : w.interest ev.epollFd d.fd = some (EPOLLIN, ev.data))
    (hev : ev.events = EPOLLIN) (hrx : ev.rx = RecvOutcome.error errno)
    (herrno : errno = EAGAIN ∨ errno = EWOULDBLOCK) :
    HandleEpollEvent srv w ev = Except.ok w := by
  have hstore : w.store ev.data d = w := World.store_same w _ _ hlive
  have hmod := ControlEpollEvent_mod w ev.epollFd d.fd EPOLLIN ev.data _ hreg
  have hsame : StdMap.modifyAt w.epoll ev.epollFd
      (fun l => StdMap.modifyAt l d.fd (fun _ => (EPOLLIN, ev.data))) = w.epoll := by
    unfold World.interest StdMap.find₂ at hreg
    cases hf : StdMap.find w.epoll ev.epollFd with
    | none => simp [hf] at hreg
    | some l =>
      simp only [hf, Option.some_bind] at hreg
      exact StdMap.modifyAt_id _ _ _ l hf (StdMap.modifyAt_same _ _ _ hreg)
  rw [hsame] at hmod
  unfold HandleEpollEvent
  simp only [hlive, hev, hrx, recv, if_true]
  have h1 : ¬ ((-1 : Int) > 0) := by decide
  have h2 : ¬ ((-1 : Int) = 0) := by decide
  simp only [h1, h2, if_false, herrno, if_true, hstore, hmod]

/-- A would-block `send` on a registered connection: `ControlEpollEvent` is called with
`EPOLL_CTL_ADD`, `epoll_ctl` fails, and `std::runtime_error` is thrown. -/
theorem HandleEpollEvent_send_would_block (srv : HttpServer) (w : World) (ev : Event)
    (d : EventData) (errno : Nat) (old : Nat × Nat) (hlive : w.deref ev.data = some d)
    (hreg : w.interest ev.epollFd d.fd = some old)
    (hev : ev.events ≠ EPOLLIN) (htx : ev.tx = SendOutcome.error errno)
    (herrno : errno = EAGAIN ∨ errno = EWOULDBLOCK) :
    HandleEpollEvent srv w ev =
      Except.error (Fault.thrown (runtime_error "Failed to add file descriptor")) := by
  have hadd := ControlEpollEvent_add_registered w ev.epollFd d.fd EPOLLOUT ev.data _ hreg
  unfold HandleEpollEvent
  simp only [hlive, hev, htx, send, if_false]
  have h1 : ¬ ((-1 : Int) ≥ 0) := by decide
  simp only [h1, if_false, herrno, if_true, hadd]

/-! ## The readable branch with a request received -/

theorem recv_data_pos (buffer bytes : List Nat) (hne : bytes ≠ []) :
    (recv buffer kMaxBufferSize (RecvOutcome.data bytes)).1 > 0 := by
  have : 0 < bytes.length := List.length_pos.mpr hne
  simp only [recv, kMaxBufferSize]
  omega

/-- A readable event with bytes received, on a registered connection, when the `try` block
and its `catch` clauses yield the response `resp`: the call returns, the descriptor is
registered for `EPOLLOUT` with a new buffer holding the encoded response, the request
buffer is released, and nothing is closed. -/
theorem HandleEpollEvent_readable (srv : HttpServer) (w : World) (ev : Event)
    (d : EventData) (bytes : List Nat) (old : Nat × Nat) (resp : HttpResponse)
    (hlive : w.deref ev.data = some d) (hreg : w.interest ev.epollFd d.fd = some old)
    (hev : ev.events = EPOLLIN) (hrx : ev.rx = RecvOutcome.data bytes) (hne : bytes ≠ [])
    (hresp : HandleHttpData.respond srv
      (cstr (recv d.buffer kMaxBufferSize ev.rx).2.2) = Except.ok resp) :
    ∃ w' response, HandleEpollEvent srv w ev = Except.ok w' ∧
      w'.interest ev.epollFd d.fd = some (EPOLLOUT, response) ∧
      w'.deref response = some
        { fd := d.fd, cursor := 0,
          length := (srv.codec.ToString resp).length % SIZE_MOD,
          buffer := memcpyResponse (srv.codec.ToString resp) ev.beyond } ∧
      w'.deref ev.data = none ∧ w'.closed = w.closed ∧ w'.sent = w.sent := by
  have hpos := recv_data_pos d.buffer bytes hne
  rw [← hrx] at hpos
  unfold HandleEpollEvent
  simp only [hlive, hev, if_true, if_pos hpos, HandleHttpData, hresp, Except.map]
  generalize hw₁ : w.store ev.data
    { fd := d.fd, length := d.length, cursor := d.cursor,
      buffer := (recv d.buffer kMaxBufferSize ev.rx).2.2 } = w₁
  have hlive₁ : w₁.deref ev.data = some
      { fd := d.fd, length := d.length, cursor := d.cursor,
        buffer := (recv d.buffer kMaxBufferSize ev.rx).2.2 } := by
    rw [← hw₁, World.deref_store]
    simp
  have hreg₁ : w₁.interest ev.epollFd d.fd = some old := by
    rw [← hw₁]
    exact hreg
  have hclosed₁ : w₁.closed = w.closed := by
    rw [← hw₁]
    rfl
  have hsent₁ : w₁.sent = w.sent := by
    rw [← hw₁]
    rfl
  have hnew : w₁.new.1 ≠ ev.data := World.new_ne_of_deref w₁ _ _ hlive₁
  generalize hfilled : EventData.mk d.fd ((srv.codec.ToString resp).length % SIZE_MOD) 0
    (memcpyResponse (srv.codec.ToString resp) ev.beyond) = filled
  generalize hw₃ : (w₁.new.2.store w₁.new.1
    { fd := d.fd, length := 0, cursor := 0,
      buffer := List.replicate kMaxBufferSize 0 }).store w₁.new.1 filled = w₃
  have hreg₃ : w₃.interest ev.epollFd d.fd = some old := by
    rw [← hw₃]
    exact hreg₁
  have hderef₃ : w₃.deref w₁.new.1 = some filled := by
    rw [← hw₃, World.deref_store]
    simp
  rw [ControlEpollEvent_mod w₃ _ _ _ _ _ hreg₃]
  refine ⟨_, w₁.new.1, rfl, ?_, ?_, ?_, ?_, ?_⟩
  · have := World.interest_mod w₃ ev.epollFd d.fd ev.epollFd d.fd (EPOLLOUT, w₁.new.1) old
      hreg₃
    simpa using this
  · rw [World.deref_delete, if_neg hnew]
    exact hderef₃
  · rw [World.deref_delete]
    simp
  · rw [← hclosed₁, ← hw₃]
    rfl
  · rw [← hsent₁, ← hw₃]
    rfl

/-! ## The buffer bookkeeping -/

theorem epoll_ctl_frame (w : World) (epfd : Int) (op : Nat) (fd : Int) (event : Nat × Nat) :
    (epoll_ctl w epfd op fd event).2.heap = w.heap ∧
    (epoll_ctl w epfd op fd event).2.closed = w.closed ∧
    (epoll_ctl w epfd op fd event).2.sent = w.sent := by
  unfold epoll_ctl
  repeat' split
  all_goals exact ⟨rfl, rfl, rfl⟩

theorem ControlEpollEvent_frame (w w' : World) (epollFd : Int) (op : Nat) (fd : Int)
    (events data : Nat) (h : ControlEpollEvent w epollFd op fd events data = Except.ok w') :
    w'.heap = w.heap ∧ w'.closed = w.closed ∧ w'.sent = w.sent := by
  simp only [ControlEpollEvent] at h
  split_ifs at h
  · simp only [Except.ok.injEq] at h
    rw [← h]
    exact epoll_ctl_frame w epollFd op fd _
  · simp only [Except.ok.injEq] at h
    rw [← h]
    exact epoll_ctl_frame w epollFd op fd _

/-- C1, as stated, fails: on a fresh server, registering `say_hello` and then `send_html`
for `GET /` leaves `HandleHttpRequest` calling `say_hello` (the earlier handler), and its
result differs from that of `send_html`. -/
theorem register_twice_counterexample :
    HandleHttpRequest
        (RegisterHttpRequestHandler
          (RegisterHttpRequestHandler [] (lit "/") HttpMethod.GET say_hello)
          (lit "/") HttpMethod.GET send_html)
        (requestFor HttpMethod.GET (lit "/")) = say_hello (requestFor HttpMethod.GET (lit "/")) ∧
    HandleHttpRequest
        (RegisterHttpRequestHandler
          (RegisterHttpRequestHandler [] (lit "/") HttpMethod.GET say_hello)
          (lit "/") HttpMethod.GET send_html)
        (requestFor HttpMethod.GET (lit "/")) ≠
      send_html (requestFor HttpMethod.GET (lit "/")) := by
  decide

/-- C1, amended: `std::map::insert` keeps an existing entry, so registering `(p, m, h2)`
after `(p, m, h1)` changes nothing for a request for `(p, m)`; and when no handler was
registered for `(p, m)` before, the request is answered by `h1`, the earlier handler. -/
theorem register_twice_keeps_first (hs : RequestHandlers) (p : Str) (m : HttpMethod)
    (h1 h2 : HttpRequestHandler_t) (request : HttpRequest)
    (huri : request.GetURI = URI.ofPath p) (hmethod : request.GetMethod = m) :
    HandleHttpRequest
        (RegisterHttpRequestHandler (RegisterHttpRequestHandler hs p m h1) p m h2) request =
      HandleHttpRequest (RegisterHttpRequestHandler hs p m h1) request ∧
    (lookupHandler hs (URI.ofPath p) m = none →
      HandleHttpRequest
        (RegisterHttpRequestHandler (RegisterHttpRequestHandler hs p m h1) p m h2) request =
      h1 request) := by
  have hfind : ∀ t : RequestHandlers, ∀ h : HttpRequestHandler_t,
      (StdMap.find (RegisterHttpRequestHandler t p m h) (URI.ofPath p)).isSome = true := by
    intro t h
    simp [RegisterHttpRequestHandler, URI.ofPath, URI.SetPath, StdMap.find_modifyAt_self]
  have hlook : ∀ t : RequestHandlers, ∀ h : HttpRequestHandler_t,
      lookupHandler (RegisterHttpRequestHandler t p m h) (URI.ofPath p) m =
        some ((lookupHandler t (URI.ofPath p) m).getD h) := by
    intro t h
    have := lookupHandler_modifyAt_insert t (URI.ofPath p) (URI.ofPath p) m m h
    simpa [RegisterHttpRequestHandler, URI.ofPath, URI.SetPath] using this
  have h₁ := hlook hs h1
  have h₂ := hlook (RegisterHttpRequestHandler hs p m h1) h2
  rw [h₁] at h₂
  simp only [Option.getD_some] at h₂
  refine ⟨?_, ?_⟩
  · rw [HandleHttpRequest_eq, HandleHttpRequest_eq, huri, hmethod, h₁, h₂]
  · intro hfree
    rw [HandleHttpRequest_eq, huri, hmethod, h₂, hfree]
    rfl

/-- Witness for C1 (amended) on a fresh server with the two handlers of `main.cpp`. -/
theorem register_twice_keeps_first_witness :
    (requestFor HttpMethod.HEAD (lit "/")).GetURI = URI.ofPath (lit "/") ∧
    (requestFor HttpMethod.HEAD (lit "/")).GetMethod = HttpMethod.HEAD ∧
    lookupHandler [] (URI.ofPath (lit "/")) HttpMethod.HEAD = none ∧
    HandleHttpRequest
        (RegisterHttpRequestHandler
          (RegisterHttpRequestHandler [] (lit "/") HttpMethod.HEAD say_hello)
          (lit "/") HttpMethod.HEAD send_html)
        (requestFor HttpMethod.HEAD (lit "/")) =
      say_hello (requestFor HttpMethod.HEAD (lit "/")) :=
  ⟨rfl, rfl, rfl,
    (register_twice_keeps_first [] (lit "/") HttpMethod.HEAD say_hello send_html
      (requestFor HttpMethod.HEAD (lit "/")) rfl rfl).2 rfl⟩

/-- C2: for the route table built by any sequence of registration calls and any request,
`HandleHttpRequest` answers NotFound when no call registered the request's routing key,
MethodNotAllowed when some call registered the key but none with the request's method, and
otherwise exactly the result of the handler of the first call that registered this key and
method; the lookup itself has no failing path (a failure can only be the handler's own). -/
theorem HandleHttpRequest_coverage (regs : List Registration) (request : HttpRequest) :
    ((∀ r ∈ regs, r.key ≠ request.GetURI) →
      HandleHttpRequest (registerAll regs) request =
        Except.ok (HttpResponse.ofStatus HttpStatusCode.NotFound)) ∧
    ((∃ r ∈ regs, r.key = request.GetURI) →
      (∀ r ∈ regs, r.key = request.GetURI → r.method ≠ request.GetMethod) →
      HandleHttpRequest (registerAll regs) request =
        Except.ok (HttpResponse.ofStatus HttpStatusCode.MethodNotAllowed)) ∧
    (∀ r, regs.find? (fun r => decide (r.key = request.GetURI ∧
          r.method = request.GetMethod)) = some r →
      HandleHttpRequest (registerAll regs) request = r.callback request) := by
  have hlook := lookupHandler_foldl regs [] request.GetURI request.GetMethod
  have hsome := find_isSome_foldl regs [] request.GetURI
  have hnil : lookupHandler [] request.GetURI request.GetMethod = none := rfl
  rw [hnil] at hlook
  simp only [StdMap.find, Option.isSome_none, Bool.false_or] at hsome
  refine ⟨?_, ?_, ?_⟩
  · intro hnone
    have hfind : regs.find? (fun r => decide (r.key = request.GetURI ∧
        r.method = request.GetMethod)) = none := by
      rw [List.find?_eq_none]
      intro r hr
      simp [hnone r hr]
    have hany : regs.any (fun r => decide (r.key = request.GetURI)) = false := by
      rw [List.any_eq_false]
      intro r hr
      simp [hnone r hr]
    rw [HandleHttpRequest_eq]
    unfold registerAll
    rw [hlook, hfind, hsome, hany]
    rfl
  · intro hex hall
    have hfind : regs.find? (fun r => decide (r.key = request.GetURI ∧
        r.method = request.GetMethod)) = none := by
      rw [List.find?_eq_none]
      intro r hr
      simp only [decide_eq_true_eq, not_and]
      exact fun hk => hall r hr hk
    have hany : regs.any (fun r => decide (r.key = request.GetURI)) = true := by
      rw [List.any_eq_true]
      obtain ⟨r, hr, hk⟩ := hex
      exact ⟨r, hr, by simp [hk]⟩
    rw [HandleHttpRequest_eq]
    unfold registerAll
    rw [hlook, hfind, hsome, hany]
    rfl
  · intro r hr
    rw [HandleHttpRequest_eq]
    unfold registerAll
    rw [hlook, hr]
    rfl

/-- Witness for C2 with the registrations of `main.cpp`: `GET /missing` gives 404,
`POST /` gives 405, and `GET /` gives the result of `say_hello`. -/
theorem HandleHttpRequest_coverage_witness :
    (HandleHttpRequest (registerAll mainRegistrations)
        (requestFor HttpMethod.GET (lit "/missing")) =
      Except.ok (HttpResponse.ofStatus HttpStatusCode.NotFound) ∧
     (HttpResponse.ofStatus HttpStatusCode.NotFound).GetStatusCode.code = 404) ∧
    (HandleHttpRequest (registerAll mainRegistrations)
        (requestFor HttpMethod.POST (lit "/")) =
      Except.ok (HttpResponse.ofStatus HttpStatusCode.MethodNotAllowed) ∧
     (HttpResponse.ofStatus HttpStatusCode.MethodNotAllowed).GetStatusCode.code = 405) ∧
    HandleHttpRequest (registerAll mainRegistrations)
        (requestFor HttpMethod.GET (lit "/")) =
      say_hello (requestFor HttpMethod.GET (lit "/")) :=
  ⟨⟨(HandleHttpRequest_coverage mainRegistrations
        (requestFor HttpMethod.GET (lit "/missing"))).1 (by decide), rfl⟩,
   ⟨(HandleHttpRequest_coverage mainRegistrations
        (requestFor HttpMethod.POST (lit "/"))).2.1 (by decide) (by decide), rfl⟩,
   (HandleHttpRequest_coverage mainRegistrations
        (requestFor HttpMethod.GET (lit "/"))).2.2
      (Registration.byPath (lit "/") HttpMethod.GET say_hello) rfl⟩

/-- C3, as stated, fails in the part "resolves to h": `/hello.html` and `/Hello.HTML` are the
same routing key, so on a server where `say_hello` is already registered for
`GET /hello.html`, registering `send_html` for `GET /Hello.HTML` is ignored by
`std::map::insert`, and a request for `GET /hello.html` is answered by `say_hello`. -/
theorem case_insensitive_routing_counterexample :
    differOnlyInCase (lit "/Hello.HTML") (lit "/hello.html") = true ∧
    HandleHttpRequest
        (RegisterHttpRequestHandler
          (RegisterHttpRequestHandler [] (lit "/hello.html") HttpMethod.GET say_hello)
          (lit "/Hello.HTML") HttpMethod.GET send_html)
        (requestFor HttpMethod.GET (lit "/hello.html")) =
      say_hello (requestFor HttpMethod.GET (lit "/hello.html")) ∧
    HandleHttpRequest
        (RegisterHttpRequestHandler
          (RegisterHttpRequestHandler [] (lit "/hello.html") HttpMethod.GET say_hello)
          (lit "/Hello.HTML") HttpMethod.GET send_html)
        (requestFor HttpMethod.GET (lit "/hello.html")) ≠
      send_html (requestFor HttpMethod.GET (lit "/hello.html")) := by
  decide

/-- C3, amended: when `p` and `q` differ only in the case of ASCII letters,
`URI(p) == URI(q)`, and after registering `(p, m, h)` with either overload on a server that
had no handler for that key and method, a request for method `m` whose URI was constructed
from `q` is answered by `h`. -/
theorem case_insensitive_routing (hs : RequestHandlers) (p q : Str) (m : HttpMethod)
    (h : HttpRequestHandler_t) (request : HttpRequest)
    (hcase : differOnlyInCase p q = true)
    (huri : request.GetURI = URI.ofPath q) (hmethod : request.GetMethod = m)
    (hfree : lookupHandler hs (URI.ofPath p) m = none) :
    URI.eq (URI.ofPath p) (URI.ofPath q) = true ∧
    HandleHttpRequest (RegisterHttpRequestHandler hs p m h) request = h request ∧
    HandleHttpRequest (RegisterHttpRequestHandlerURI hs (URI.ofPath p) m h) request =
      h request := by
  have hpq := URI.ofPath_eq_of_differOnlyInCase p q hcase
  have hlook : lookupHandler (StdMap.modifyAt hs (URI.ofPath p)
      (fun handlers => StdMap.insert handlers m h)) (URI.ofPath p) m = some h := by
    rw [lookupHandler_modifyAt_insert, hfree]
    simp
  refine ⟨?_, ?_, ?_⟩
  · simp [URI.eq, hpq]
  · rw [HandleHttpRequest_eq, huri, hmethod, ← hpq]
    have : RegisterHttpRequestHandler hs p m h = StdMap.modifyAt hs (URI.ofPath p)
        (fun handlers => StdMap.insert handlers m h) := rfl
    rw [this, hlook]
  · rw [HandleHttpRequest_eq, huri, hmethod, ← hpq]
    have : RegisterHttpRequestHandlerURI hs (URI.ofPath p) m h =
        StdMap.modifyAt hs (URI.ofPath p)
          (fun handlers => StdMap.insert handlers m h) := rfl
    rw [this, hlook]

/-- Witness for C3 (amended): `/Hello.HTML` registered on a fresh server, `/hello.html`
requested. -/
theorem case_insensitive_routing_witness :
    differOnlyInCase (lit "/Hello.HTML") (lit "/hello.html") = true ∧
    URI.eq (URI.ofPath (lit "/Hello.HTML")) (URI.ofPath (lit "/hello.html")) = true ∧
    HandleHttpRequest
        (RegisterHttpRequestHandler [] (lit "/Hello.HTML") HttpMethod.GET send_html)
        (requestFor HttpMethod.GET (lit "/hello.html")) =
      send_html (requestFor HttpMethod.GET (lit "/hello.html")) ∧
    HandleHttpRequest
        (RegisterHttpRequestHandlerURI [] (URI.ofPath (lit "/Hello.HTML")) HttpMethod.GET
          send_html)
        (requestFor HttpMethod.GET (lit "/hello.html")) =
      send_html (requestFor HttpMethod.GET (lit "/hello.html")) :=
  ⟨by decide,
    case_insensitive_routing [] (lit "/Hello.HTML") (lit "/hello.html") HttpMethod.GET
      send_html (requestFor HttpMethod.GET (lit "/hello.html")) (by decide) rfl rfl rfl⟩

/-- C4: path normalisation (`SetPath` followed by `path()`) is idempotent, whatever `URI`
objects it is called on, and `/Hello.HTML` and `/hello.html` both normalise to
`/hello.html`. -/
theorem normalize_idempotent :
    (∀ (u v : URI) (p : Str),
      (URI.SetPath v (URI.SetPath u p).path).path = (URI.SetPath u p).path) ∧
    (URI.SetPath {} (lit "/Hello.HTML")).path = lit "/hello.html" ∧
    (URI.SetPath {} (lit "/hello.html")).path = lit "/hello.html" := by
  refine ⟨?_, by decide, by decide⟩
  intro u v p
  simp [URI.SetPath, URI.path, tolower_idem]

/-! ## Claim on the Content-Length header -/

theorem HttpMessage.GetHeader_SetHeader_self (msg : HttpMessage) (key value : Str) :
    (msg.SetHeader key value).GetHeader key = value := by
  simp [HttpMessage.GetHeader, HttpMessage.SetHeader, StdMap.find_modifyAt_self]

theorem HttpMessage.GetHeader_SetHeader_of_ne (msg : HttpMessage) (key key₂ value : Str)
    (hne : key ≠ key₂) :
    (msg.SetHeader key value).GetHeader key₂ = msg.GetHeader key₂ := by
  simp [HttpMessage.GetHeader, HttpMessage.SetHeader, StdMap.find_modifyAt_of_ne _ _ _ _ hne]

theorem HttpMessage.GetHeader_RemoveHeader_of_ne (msg : HttpMessage) (key key₂ : Str)
    (hne : key ≠ key₂) :
    (msg.RemoveHeader key).GetHeader key₂ = msg.GetHeader key₂ := by
  have h : ¬ key₂ = key := fun e => hne e.symm
  simp [HttpMessage.GetHeader, HttpMessage.RemoveHeader, StdMap.find_erase, h]

/-- The header agrees with the body: `GetHeader("Content-Length")` is the decimal rendering
of `GetContentLength()`. -/
theorem contentLength_agrees_after_body (r : HttpResponse) (m : Mutator)
    (hbody : m.setsBody = true) :
    (m.apply r).GetHeader (lit "Content-Length") =
      to_string (m.apply r).GetContentLength := by
  cases m with
  | SetContent content =>
    simp only [Mutator.apply, HttpResponse.SetContent, HttpResponse.GetHeader,
      HttpResponse.GetContentLength, HttpMessage.SetContent,
      HttpMessage.GetHeader_SetHeader_self]
    rfl
  | ClearContent =>
    simp only [Mutator.apply, HttpResponse.ClearContent, HttpResponse.GetHeader,
      HttpResponse.GetContentLength, HttpMessage.ClearContent,
      HttpMessage.GetHeader_SetHeader_self]
    rfl
  | SetHeader key value => simp [Mutator.setsBody] at hbody
  | RemoveHeader key => simp [Mutator.setsBody] at hbody
  | ClearHeader => simp [Mutator.setsBody] at hbody
  | SetStatusCode statusCode => simp [Mutator.setsBody] at hbody

theorem contentLength_agrees_preserved (r : HttpResponse) (m : Mutator)
    (hkeep : m.overridesContentLength = false)
    (hr : r.GetHeader (lit "Content-Length") = to_string r.GetContentLength) :
    (m.apply r).GetHeader (lit "Content-Length") =
      to_string (m.apply r).GetContentLength := by
  cases m with
  | SetContent content => exact contentLength_agrees_after_body r _ rfl
  | ClearContent => exact contentLength_agrees_after_body r _ rfl
  | SetHeader key value =>
    simp only [Mutator.overridesContentLength, decide_eq_false_iff_not] at hkeep
    simp only [Mutator.apply, HttpResponse.SetHeader, HttpResponse.GetHeader,
      HttpResponse.GetContentLength, HttpMessage.GetHeader_SetHeader_of_ne _ _ _ _ hkeep]
    exact hr
  | RemoveHeader key =>
    simp only [Mutator.overridesContentLength, decide_eq_false_iff_not] at hkeep
    simp only [Mutator.apply, HttpResponse.RemoveHeader, HttpResponse.GetHeader,
      HttpResponse.GetContentLength, HttpMessage.GetHeader_RemoveHeader_of_ne _ _ _ hkeep]
    exact hr
  | ClearHeader => simp [Mutator.overridesContentLength] at hkeep
  | SetStatusCode statusCode => exact hr

/-- C9, as stated, fails: after `SetContent("abc")`, the public mutator
`SetHeader("Content-Length", "999")` leaves the header at "999" while the body length is
still 3; `RemoveHeader("Content-Length")` and `ClearHeader()` leave it empty. -/
theorem content_length_override_counterexample :
    (((HttpResponse.ofStatus HttpStatusCode.OK).SetContent (lit "abc")).SetHeader
        (lit "Content-Length") (lit "999")).GetHeader (lit "Content-Length") = lit "999" ∧
    to_string (((HttpResponse.ofStatus HttpStatusCode.OK).SetContent (lit "abc")).SetHeader
        (lit "Content-Length") (lit "999")).GetContentLength = lit "3" ∧
    (((HttpResponse.ofStatus HttpStatusCode.OK).SetContent (lit "abc")).RemoveHeader
        (lit "Content-Length")).GetHeader (lit "Content-Length") = [] ∧
    (((HttpResponse.ofStatus HttpStatusCode.OK).SetContent (lit "abc")).ClearHeader).GetHeader
        (lit "Content-Length") = [] ∧
    ¬ (∀ (ms : List Mutator),
        (∃ m ∈ ms, m.setsBody = true) →
        (ms.foldl Mutator.apply (HttpResponse.ofStatus HttpStatusCode.OK)).GetHeader
            (lit "Content-Length") =
          to_string (ms.foldl Mutator.apply
            (HttpResponse.ofStatus HttpStatusCode.OK)).GetContentLength) := by
  refine ⟨by decide, by decide, by decide, by decide, ?_⟩
  intro hall
  have h := hall [Mutator.SetContent (lit "abc"),
    Mutator.SetHeader (lit "Content-Length") (lit "999")]
    ⟨Mutator.SetContent (lit "abc"), by simp, rfl⟩
  revert h
  decide

/-- C9, amended: right after `SetContent` or `ClearContent` the "Content-Length" header is
the decimal rendering of the body length, and it stays so through any further sequence of
mutator calls none of which is `SetHeader` or `RemoveHeader` on the key "Content-Length" or
`ClearHeader` (further `SetContent` and `ClearContent` calls included). -/
theorem content_length_tracks_body (r : HttpResponse) (first : Mutator)
    (rest : List Mutator) (hfirst : first.setsBody = true)
    (hrest : ∀ m ∈ rest, m.overridesContentLength = false) :
    (rest.foldl Mutator.apply (first.apply r)).GetHeader (lit "Content-Length") =
      to_string (rest.foldl Mutator.apply (first.apply r)).GetContentLength := by
  have hstart := contentLength_agrees_after_body r first hfirst
  generalize first.apply r = r₀ at hstart
  induction rest generalizing r₀ with
  | nil => exact hstart
  | cons m ms ih =>
    simp only [List.foldl_cons]
    apply ih
    · intro m' hm'
      exact hrest m' (List.mem_cons_of_mem _ hm')
    · exact contentLength_agrees_preserved r₀ m (hrest m (List.mem_cons_self _ _)) hstart

/-- Witness for C9 (amended): body set, another header set, status changed, body cleared,
body set again. -/
theorem content_length_tracks_body_witness :
    (Mutator.SetContent (lit "Hello, world\n")).setsBody = true ∧
    (∀ m ∈ [Mutator.SetHeader (lit "Content-Type") (lit "text/plain"),
        Mutator.SetStatusCode HttpStatusCode.NotFound, Mutator.ClearContent,
        Mutator.RemoveHeader (lit "Content-Type"), Mutator.SetContent (lit "abc")],
      m.overridesContentLength = false) ∧
    ([Mutator.SetHeader (lit "Content-Type") (lit "text/plain"),
        Mutator.SetStatusCode HttpStatusCode.NotFound, Mutator.ClearContent,
        Mutator.RemoveHeader (lit "Content-Type"), Mutator.SetContent (lit "abc")].foldl
        Mutator.apply ((Mutator.SetContent (lit "Hello, world\n")).apply
          (HttpResponse.ofStatus HttpStatusCode.OK))).GetHeader (lit "Content-Length") =
      to_string ([Mutator.SetHeader (lit "Content-Type") (lit "text/plain"),
        Mutator.SetStatusCode HttpStatusCode.NotFound, Mutator.ClearContent,
        Mutator.RemoveHeader (lit "Content-Type"), Mutator.SetContent (lit "abc")].foldl
        Mutator.apply ((Mutator.SetContent (lit "Hello, world\n")).apply
          (HttpResponse.ofStatus HttpStatusCode.OK))).GetContentLength :=
  ⟨rfl, by decide,
    content_length_tracks_body (HttpResponse.ofStatus HttpStatusCode.OK)
      (Mutator.SetContent (lit "Hello, world\n")) _ rfl (by decide)⟩

/-! ## Claims on the connection state machine -/

/-- C7: the code breaks the claim on the write side. On a connection that is registered
for `EPOLLOUT` (descriptor 20, after its request was read), a would-block `send` makes
`HandleEpollEvent` call `ControlEpollEvent` with `EPOLL_CTL_ADD`; the descriptor is already
registered, `epoll_ctl` fails, and `std::runtime_error("Failed to add file descriptor")` is
thrown. On the read side a would-block `recv` returns with the state unchanged. -/
theorem send_would_block_throws :
    (exampleAccepted.bind (fun w => runEvents exampleServer w [exampleRead])).toOption.bind
        (fun w => w.interest 3 20) = some (EPOLLOUT, 2) ∧
    exampleAccepted.bind (fun w => runEvents exampleServer w
        [exampleRead, { epollFd := 3, data := 2, events := EPOLLOUT,
                        tx := SendOutcome.error EAGAIN }]) =
      Except.error (Fault.thrown (runtime_error "Failed to add file descriptor")) ∧
    HandleEpollEvent exampleServer exampleWorld
        { epollFd := 3, data := 1, events := EPOLLIN, rx := RecvOutcome.error EAGAIN } =
      Except.ok exampleWorld := by
  refine ⟨by decide, by decide, ?_⟩
  exact HandleEpollEvent_recv_would_block exampleServer exampleWorld _ { fd := 20 } EAGAIN
    rfl rfl rfl rfl (Or.inl rfl)

theorem exampleAccepted_eq : exampleAccepted = Except.ok exampleWorld := by
  rfl

theorem World.stream_of_sent (w w' : World) (fd : Int) (bs : List Nat)
    (h : w'.sent = w.sent ++ [(fd, bs)]) : w'.stream fd = w.stream fd ++ bs := by
  simp [World.stream, h, List.filter_append]

/-- A writable event where the kernel accepts fewer bytes than remain: the call returns,
the cursor advances by the count, the remainder shrinks by it, and the descriptor stays
registered for `EPOLLOUT` with the same buffer object. -/
theorem HandleEpollEvent_send_part (srv : HttpServer) (w : World) (ev : Event)
    (d : EventData) (old : Nat × Nat) (s : Nat)
    (hlive : w.deref ev.data = some d) (hreg : w.interest ev.epollFd d.fd = some old)
    (hev : ev.events ≠ EPOLLIN) (htx : ev.tx = SendOutcome.room s) (hlt : s < d.length) :
    ∃ w', HandleEpollEvent srv w ev = Except.ok w' ∧
      w'.interest ev.epollFd d.fd = some (EPOLLOUT, ev.data) ∧
      w'.deref ev.data = some
        { d with cursor := (d.cursor + s) % SIZE_MOD, length := d.length - s } ∧
      w'.closed = w.closed ∧
      w'.sent = w.sent ++ [(d.fd, (d.buffer.drop d.cursor).take s)] := by
  have hmin : min s d.length = s := Nat.min_eq_left (Nat.le_of_lt hlt)
  unfold HandleEpollEvent
  simp only [hlive, hev, if_false, htx, send, hmin, Int.toNat_ofNat, ge_iff_le,
    Int.ofNat_nonneg, Nat.cast_nonneg, if_true, hlt]
  generalize hw₁ : World.store _ ev.data _ = w₁
  have hreg₁ : w₁.interest ev.epollFd d.fd = some old := by
    rw [← hw₁]
    exact hreg
  rw [ControlEpollEvent_mod w₁ _ _ _ _ _ hreg₁]
  refine ⟨_, rfl, ?_, ?_, ?_, ?_⟩
  · have := World.interest_mod w₁ ev.epollFd d.fd ev.epollFd d.fd (EPOLLOUT, ev.data) old hreg₁
    simpa using this
  · show w₁.deref ev.data = _
    rw [← hw₁, World.deref_store]
    simp
  · rw [← hw₁]
    rfl
  · rw [← hw₁]
    rfl

/-- A writable event where the kernel accepts the whole remainder: the call returns, the
response buffer is released, and the descriptor is registered for `EPOLLIN` with a fresh
buffer. -/
theorem HandleEpollEvent_send_rest (srv : HttpServer) (w : World) (ev : Event)
    (d : EventData) (old : Nat × Nat) (s : Nat)
    (hlive : w.deref ev.data = some d) (hreg : w.interest ev.epollFd d.fd = some old)
    (hev : ev.events ≠ EPOLLIN) (htx : ev.tx = SendOutcome.room s) (hge : d.length ≤ s) :
    ∃ w' request, HandleEpollEvent srv w ev = Except.ok w' ∧
      w'.interest ev.epollFd d.fd = some (EPOLLIN, request) ∧
      w'.deref request = some { fd := d.fd } ∧
      w'.deref ev.data = none ∧
      w'.closed = w.closed ∧
      w'.sent = w.sent ++ [(d.fd, (d.buffer.drop d.cursor).take d.length)] := by
  have hmin : min s d.length = d.length := Nat.min_eq_right hge
  unfold HandleEpollEvent
  simp only [hlive, hev, if_false, htx, send, hmin, Int.toNat_ofNat, ge_iff_le,
    Int.ofNat_nonneg, Nat.cast_nonneg, if_true, lt_irrefl, Except.map]
  generalize hw₀ : ({ w with
    sent := w.sent ++ [(d.fd, (d.buffer.drop d.cursor).take d.length)] } : World) = w₀
  have hlive₀ : w₀.deref ev.data = some d := by
    rw [← hw₀]
    exact hlive
  have hnew : w₀.new.1 ≠ ev.data := World.new_ne_of_deref w₀ _ _ hlive₀
  generalize hw₁ : w₀.new.2.store w₀.new.1
    { fd := d.fd, length := 0, cursor := 0,
      buffer := List.replicate kMaxBufferSize 0 } = w₁
  have hreg₁ : w₁.interest ev.epollFd d.fd = some old := by
    rw [← hw₁, ← hw₀]
    exact hreg
  rw [ControlEpollEvent_mod w₁ _ _ _ _ _ hreg₁]
  refine ⟨_, w₀.new.1, rfl, ?_, ?_, ?_, ?_, ?_⟩
  · have := World.interest_mod w₁ ev.epollFd d.fd ev.epollFd d.fd (EPOLLIN, w₀.new.1) old
      hreg₁
    simpa using this
  · rw [World.deref_delete, if_neg hnew]
    show w₁.deref w₀.new.1 = _
    rw [← hw₁, World.deref_store]
    simp
  · rw [World.deref_delete]
    simp
  · rw [← hw₁, ← hw₀]
    rfl
  · rw [← hw₁, ← hw₀]
    rfl

theorem take_drop_append (buf : List Nat) (c s t : Nat) :
    (buf.drop c).take s ++ (buf.drop (c + s)).take t = (buf.drop c).take (s + t) := by
  rw [List.take_add, List.drop_drop]

theorem runEvents_cons_ok (srv : HttpServer) (w w₁ : World) (ev : Event) (rest : List Event)
    (h : HandleEpollEvent srv w ev = Except.ok w₁) :
    runEvents srv w (ev :: rest) = runEvents srv w₁ rest := by
  simp [runEvents, h]

/-- The writable events of one response, from any cursor position: the state after every
proper part of the sends, and after all of them. -/
theorem write_progress_from (srv : HttpServer) (epollFd : Int) (data : Nat) :
    ∀ (sends : List Nat) (w : World) (d : EventData) (old : Nat × Nat),
      w.deref data = some d → w.interest epollFd d.fd = some old →
      d.cursor + d.length ≤ kMaxBufferSize →
      sends ≠ [] → sends.sum = d.length →
      (∀ k, 0 < k → k < sends.length → (sends.take k).sum < d.length) →
      (∀ k, 0 < k → k < sends.length →
        ∃ wk, runEvents srv w (writeEvents epollFd data (sends.take k)) = Except.ok wk ∧
          wk.interest epollFd d.fd = some (EPOLLOUT, data) ∧
          wk.deref data = some
            { d with cursor := d.cursor + (sends.take k).sum,
                     length := d.length - (sends.take k).sum } ∧
          wk.closed = w.closed ∧
          wk.stream d.fd = w.stream d.fd ++
            (d.buffer.drop d.cursor).take (sends.take k).sum) ∧
      (∃ wn request, runEvents srv w (writeEvents epollFd data sends) = Except.ok wn ∧
          wn.interest epollFd d.fd = some (EPOLLIN, request) ∧
          wn.deref request = some { fd := d.fd } ∧
          wn.deref data = none ∧
          wn.closed = w.closed ∧
          wn.stream d.fd = w.stream d.fd ++ (d.buffer.drop d.cursor).take d.length) := by
  intro sends
  induction sends with
  | nil => intro w d old _ _ _ hne; exact absurd rfl hne
  | cons s rest ih =>
    intro w d old hlive hreg hbound _ hsum hfirst
    have hevne : EPOLLOUT ≠ EPOLLIN := by decide
    cases rest with
    | nil =>
      have hs : d.length ≤ s := by
        simp only [List.sum_cons, List.sum_nil, add_zero] at hsum
        omega
      obtain ⟨w', request, hrun, hint, hfresh, hrel, hclosed, hsent⟩ :=
        HandleEpollEvent_send_rest srv w
          { epollFd := epollFd, data := data, events := EPOLLOUT, tx := SendOutcome.room s }
          d old s hlive hreg hevne rfl hs
      refine ⟨?_, w', request, ?_, hint, hfresh, hrel, hclosed,
        World.stream_of_sent w w' _ _ hsent⟩
      · intro k hk hk'
        simp only [List.length_singleton] at hk'
        omega
      · simp only [writeEvents, List.map_cons, List.map_nil]
        rw [runEvents_cons_ok srv w w' _ _ hrun]
        rfl
    | cons s₂ rest' =>
      have hs : s < d.length := by
        have := hfirst 1 (by omega) (by simp)
        simpa using this
      obtain ⟨w₁, hrun, hint, hderef, hclosed, hsent⟩ :=
        HandleEpollEvent_send_part srv w
          { epollFd := epollFd, data := data, events := EPOLLOUT, tx := SendOutcome.room s }
          d old s hlive hreg hevne rfl hs
      have hcur : (d.cursor + s) % SIZE_MOD = d.cursor + s := by
        apply Nat.mod_eq_of_lt
        simp only [SIZE_MOD, kMaxBufferSize] at hbound ⊢
        omega
      rw [hcur] at hderef
      have hstream₁ := World.stream_of_sent w w₁ _ _ hsent
      have hsum' : (s₂ :: rest').sum = d.length - s := by
        simp only [List.sum_cons] at hsum ⊢
        omega
      have hfirst' : ∀ k, 0 < k → k < (s₂ :: rest').length →
          ((s₂ :: rest').take k).sum < d.length - s := by
        intro k hk hk'
        have := hfirst (k + 1) (by omega) (by simpa using hk')
        simp only [List.take_succ_cons, List.sum_cons] at this
        omega
      obtain ⟨ih₁, wn, request, hrunₙ, hintₙ, hfreshₙ, hrelₙ, hclosedₙ, hstreamₙ⟩ :=
        ih w₁ { d with cursor := d.cursor + s, length := d.length - s } (EPOLLOUT, data)
          hderef hint (by simp only; omega) (by simp) hsum' hfirst'
      refine ⟨?_, wn, request, ?_, hintₙ, hfreshₙ, hrelₙ, hclosedₙ.trans hclosed, ?_⟩
      · intro k hk hk'
        rcases Nat.lt_or_ge 1 k with hk1 | hk1
        · obtain ⟨j, rfl⟩ : ∃ j, k = j + 1 := ⟨k - 1, by omega⟩
          obtain ⟨wk, hrunₖ, hintₖ, hderefₖ, hclosedₖ, hstreamₖ⟩ :=
            ih₁ j (by omega) (by simpa using hk')
          refine ⟨wk, ?_, hintₖ, ?_, hclosedₖ.trans hclosed, ?_⟩
          · simp only [List.take_succ_cons, writeEvents, List.map_cons]
            rw [runEvents_cons_ok srv w w₁ _ _ hrun]
            exact hrunₖ
          · rw [hderefₖ]
            simp only [List.take_succ_cons, List.sum_cons, Option.some.injEq,
              EventData.mk.injEq, true_and, and_true]
            constructor <;> omega
          · rw [hstreamₖ, hstream₁, List.append_assoc]
            simp only [List.take_succ_cons, List.sum_cons]
            rw [take_drop_append]
        · have hk1' : k = 1 := by omega
          subst hk1'
          refine ⟨w₁, ?_, hint, ?_, hclosed, ?_⟩
          · simp only [List.take_succ_cons, List.take_zero, writeEvents, List.map_cons,
              List.map_nil]
            rw [runEvents_cons_ok srv w w₁ _ _ hrun]
            rfl
          · rw [hderef]
            simp
          · rw [hstream₁]
            simp
      · simp only [writeEvents, List.map_cons]
        rw [runEvents_cons_ok srv w w₁ _ _ hrun]
        exact hrunₙ
      · rw [hstreamₙ, hstream₁, List.append_assoc]
        simp only
        rw [take_drop_append]
        congr 2
        omega

/-- C6: a response of `S` bytes (cursor 0, `S ≤ kMaxBufferSize`) on a connection registered
for `EPOLLOUT`, and sends that accept `s1, …, sn` bytes, the sum reaching `S` first at `sn`.
After each of the first `n − 1` sends the call has returned with the descriptor still
registered for `EPOLLOUT` with the same buffer object (bytes unchanged, cursor at the sum
so far); after the `n`-th the descriptor is registered for `EPOLLIN` with a fresh empty
buffer and the response buffer is released; nothing is closed; and the bytes the kernel
accepted for the descriptor are, in order, bytes `[0, sum)` of the buffer, all `S` of them at
the end. -/
theorem partial_write_progress (srv : HttpServer) (w : World) (epollFd fd : Int)
    (data : Nat) (e : EventData) (sends : List Nat)
    (hreg : w.interest epollFd fd = some (EPOLLOUT, data))
    (hlive : w.deref data = some e) (hfd : e.fd = fd) (hcursor : e.cursor = 0)
    (hlen : e.length ≤ kMaxBufferSize) (hbuf : e.buffer.length = kMaxBufferSize)
    (hne : sends ≠ []) (hsum : sends.sum = e.length)
    (hfirst : ∀ k, 0 < k → k < sends.length → (sends.take k).sum < e.length) :
    (∀ k, 0 < k → k < sends.length →
      ∃ wk, runEvents srv w (writeEvents epollFd data (sends.take k)) = Except.ok wk ∧
        wk.interest epollFd fd = some (EPOLLOUT, data) ∧
        wk.deref data = some
          { e with cursor := (sends.take k).sum, length := e.length - (sends.take k).sum } ∧
        wk.closed = w.closed ∧
        wk.stream fd = w.stream fd ++ e.buffer.take (sends.take k).sum) ∧
    (∃ wn request, runEvents srv w (writeEvents epollFd data sends) = Except.ok wn ∧
        wn.interest epollFd fd = some (EPOLLIN, request) ∧
        wn.deref request = some { fd := fd, length := 0, cursor := 0 } ∧
        wn.deref data = none ∧
        wn.closed = w.closed ∧
        wn.stream fd = w.stream fd ++ e.buffer.take e.length ∧
        (e.buffer.take e.length).length = e.length) := by
  subst hfd
  obtain ⟨h₁, wn, request, hrun, hint, hfresh, hrel, hclosed, hstream⟩ :=
    write_progress_from srv epollFd data sends w e (EPOLLOUT, data) hlive hreg
      (by omega) hne hsum hfirst
  refine ⟨?_, wn, request, hrun, hint, hfresh, hrel, hclosed, ?_, ?_⟩
  · intro k hk hk'
    obtain ⟨wk, hrunₖ, hintₖ, hderefₖ, hclosedₖ, hstreamₖ⟩ := h₁ k hk hk'
    refine ⟨wk, hrunₖ, hintₖ, ?_, hclosedₖ, ?_⟩
    · rw [hderefₖ, hcursor, Nat.zero_add]
    · rw [hstreamₖ, hcursor, List.drop_zero]
  · rw [hstream, hcursor, List.drop_zero]
  · rw [List.length_take, hbuf]
    omega

/-- Witness for C6: the 17 response bytes of `exampleWriting` go out in sends of 10, 0 and
7 bytes. -/
theorem partial_write_progress_witness :
    (∀ k, 0 < k → k < [10, 0, 7].length →
      ∃ wk, runEvents exampleServer exampleWriting
          (writeEvents 3 2 (([10, 0, 7] : List Nat).take k)) = Except.ok wk ∧
        wk.interest 3 20 = some (EPOLLOUT, 2) ∧
        wk.deref 2 = some
          { fd := 20, cursor := (([10, 0, 7] : List Nat).take k).sum,
            length := 17 - (([10, 0, 7] : List Nat).take k).sum,
            buffer := lit "200\nHello, world\n" ++ List.replicate 4079 0 } ∧
        wk.closed = [] ∧
        wk.stream 20 = (lit "200\nHello, world\n" ++ List.replicate 4079 0).take
          (([10, 0, 7] : List Nat).take k).sum) ∧
    (∃ wn request, runEvents exampleServer exampleWriting (writeEvents 3 2 [10, 0, 7]) =
          Except.ok wn ∧
        wn.interest 3 20 = some (EPOLLIN, request) ∧
        wn.deref request = some { fd := 20, length := 0, cursor := 0 } ∧
        wn.deref 2 = none ∧
        wn.closed = [] ∧
        wn.stream 20 = lit "200\nHello, world\n") := by
  have h := partial_write_progress exampleServer exampleWriting 3 20 2
    { fd := 20, length := 17, cursor := 0,
      buffer := lit "200\nHello, world\n" ++ List.replicate 4079 0 } [10, 0, 7]
    (by decide) rfl rfl rfl (by decide)
    (by rw [List.length_append, List.length_replicate]; rfl) (by decide) (by decide)
    (by intro k h0 h3
        simp only [List.length_cons, List.length_nil] at h3
        interval_cases k <;> decide)
  obtain ⟨h₁, wn, request, hrun, hint, hfresh, hrel, hclosed, hstream, _⟩ := h
  refine ⟨h₁, wn, request, hrun, hint, hfresh, hrel, hclosed, ?_⟩
  rw [hstream]
  decide

/-! ## The acceptor -/

theorem epoll_ctl_interest_of_ne (w : World) (epfd : Int) (op : Nat) (fd : Int)
    (event : Nat × Nat) (q q₂ : Int) (hne : ¬ (epfd = q ∧ fd = q₂)) :
    (epoll_ctl w epfd op fd event).2.interest q q₂ = w.interest q q₂ := by
  unfold epoll_ctl
  cases hinst : StdMap.find w.epoll epfd with
  | none => rfl
  | some l =>
    have hsome : (StdMap.find w.epoll epfd).isSome = true := by simp [hinst]
    simp only
    split_ifs
    · cases hfd : StdMap.find l fd with
      | some old => rfl
      | none =>
        simp only [World.interest]
        rw [StdMap.find₂_modifyAt_insert, if_neg hne]
    · cases hfd : StdMap.find l fd with
      | none => rfl
      | some old =>
        simp only [World.interest]
        rw [StdMap.find₂_modifyAt_set _ _ _ _ _ _ hsome, if_neg hne]
    · cases hfd : StdMap.find l fd with
      | none => rfl
      | some old =>
        simp only [World.interest]
        rw [StdMap.find₂_modifyAt_erase _ _ _ _ _ hsome, if_neg hne]
    · rfl

theorem ControlEpollEvent_interest_of_ne (w w' : World) (epollFd : Int) (op : Nat) (fd : Int)
    (events data : Nat) (q q₂ : Int) (hne : ¬ (epollFd = q ∧ fd = q₂))
    (h : ControlEpollEvent w epollFd op fd events data = Except.ok w') :
    w'.interest q q₂ = w.interest q q₂ := by
  simp only [ControlEpollEvent] at h
  split_ifs at h
  · simp only [Except.ok.injEq] at h
    rw [← h]
    exact epoll_ctl_interest_of_ne w epollFd op fd _ q q₂ hne
  · simp only [Except.ok.injEq] at h
    rw [← h]
    exact epoll_ctl_interest_of_ne w epollFd op fd _ q q₂ hne

theorem World.has_store (w : World) (epollFd fd : Int) (reg : Nat × Nat) (data : Nat)
    (x : EventData) (p : Nat) (e : EventData) (h : w.has epollFd fd reg data x)
    (hne : p ≠ data) : (w.store p e).has epollFd fd reg data x := by
  refine ⟨h.1, ?_⟩
  rw [World.deref_store, if_neg hne]
  exact h.2

theorem World.has_new_store (w : World) (epollFd fd : Int) (reg : Nat × Nat) (data : Nat)
    (x : EventData) (e : EventData) (h : w.has epollFd fd reg data x) :
    (w.new.2.store w.new.1 e).has epollFd fd reg data x := by
  have hne := World.new_ne_of_deref w data x h.2
  refine ⟨h.1, ?_⟩
  rw [World.deref_store, if_neg hne, World.deref_new, if_neg hne]
  exact h.2

theorem World.has_delete (w : World) (epollFd fd : Int) (reg : Nat × Nat) (data : Nat)
    (x : EventData) (p : Nat) (h : w.has epollFd fd reg data x) (hne : p ≠ data) :
    (w.delete p).has epollFd fd reg data x := by
  refine ⟨h.1, ?_⟩
  rw [World.deref_delete, if_neg (fun e => hne e.symm)]
  exact h.2

theorem World.has_control (w w' : World) (epollFd fd : Int) (reg : Nat × Nat) (data : Nat)
    (x : EventData) (e : Int) (op : Nat) (f : Int) (events p : Nat)
    (h : w.has epollFd fd reg data x) (hne : ¬ (e = epollFd ∧ f = fd))
    (hc : ControlEpollEvent w e op f events p = Except.ok w') :
    w'.has epollFd fd reg data x := by
  refine ⟨?_, ?_⟩
  · rw [ControlEpollEvent_interest_of_ne w w' e op f events p epollFd fd hne hc]
    exact h.1
  · unfold World.deref
    rw [(ControlEpollEvent_frame w w' _ _ _ _ _ hc).1]
    exact h.2

theorem World.has_control_map (w w' : World) (epollFd fd : Int) (reg : Nat × Nat)
    (data : Nat) (x : EventData) (e : Int) (op : Nat) (f : Int) (events p : Nat)
    (g : World → World)
    (hg : ∀ v : World, v.has epollFd fd reg data x → (g v).has epollFd fd reg data x)
    (h : w.has epollFd fd reg data x) (hne : ¬ (e = epollFd ∧ f = fd))
    (hc : (ControlEpollEvent w e op f events p).map g = Except.ok w') :
    w'.has epollFd fd reg data x := by
  cases hc' : ControlEpollEvent w e op f events p with
  | error err => simp [hc', Except.map] at hc
  | ok v =>
    simp only [hc', Except.map, Except.ok.injEq] at hc
    rw [← hc]
    exact hg v (World.has_control w v _ _ _ _ _ _ _ _ _ _ h hne hc')

/-- A `HandleEpollEvent` call for another connection leaves a connection's registration and
buffer as they were. -/
theorem HandleEpollEvent_has (srv : HttpServer) (w w' : World) (ev : Event)
    (epollFd fd : Int) (reg : Nat × Nat) (data : Nat) (x other : EventData)
    (h : w.has epollFd fd reg data x) (hother : w.deref ev.data = some other)
    (hdata : ev.data ≠ data) (hconn : ¬ (ev.epollFd = epollFd ∧ other.fd = fd))
    (hrun : HandleEpollEvent srv w ev = Except.ok w') :
    w'.has epollFd fd reg data x := by
  unfold HandleEpollEvent at hrun
  simp only [hother] at hrun
  have hdel : ∀ v : World, v.has epollFd fd reg data x →
      ((v.close other.fd).delete ev.data).has epollFd fd reg data x := by
    intro v hv
    exact World.has_delete _ _ _ _ _ _ _ ⟨hv.1, hv.2⟩ hdata
  split_ifs at hrun with hin hpos hzero herr hsent hlt herr₂
  · simp only [HandleHttpData] at hrun
    cases hr : HandleHttpData.respond srv
        (cstr (recv other.buffer kMaxBufferSize ev.rx).2.2) with
    | error e => simp [hr, Except.map] at hrun
    | ok resp =>
      simp only [hr, Except.map] at hrun
      revert hrun
      generalize hc : ControlEpollEvent _ _ _ _ _ _ = c
      intro hrun
      cases c with
      | error e => simp at hrun
      | ok v =>
        simp only [Except.ok.injEq] at hrun
        rw [← hrun]
        apply World.has_delete _ _ _ _ _ _ _ _ hdata
        refine World.has_control _ v _ _ _ _ _ _ _ _ _ _ ?_ hconn hc
        have h₁ := World.has_store w epollFd fd reg data x ev.data
          { other with buffer := (recv other.buffer kMaxBufferSize ev.rx).2.2 } h hdata
        have hne := World.new_ne_of_deref _ data x h₁.2
        exact World.has_store _ _ _ _ _ _ _ _ (World.has_new_store _ _ _ _ _ _ _ h₁) hne
  · exact World.has_control_map _ w' _ _ _ _ _ _ _ _ _ _ _ hdel
      (World.has_store w _ _ _ _ _ _ _ h hdata) hconn hrun
  · refine World.has_control _ w' _ _ _ _ _ _ _ _ _ _ ?_ hconn hrun
    exact World.has_store _ _ _ _ _ _ _ _ (World.has_store w _ _ _ _ _ _ _ h hdata) hdata
  · exact World.has_control_map _ w' _ _ _ _ _ _ _ _ _ _ _ hdel
      (World.has_store w _ _ _ _ _ _ _ h hdata) hconn hrun
  · refine World.has_control _ w' _ _ _ _ _ _ _ _ _ _ ?_ hconn hrun
    exact World.has_store _ _ _ _ _ _ _ _ ⟨h.1, h.2⟩ hdata
  · refine World.has_control_map _ w' _ _ _ _ _ _ _ _ _ _ _ ?_ ?_ hconn hrun
    · intro v hv
      exact World.has_delete _ _ _ _ _ _ _ hv hdata
    · exact World.has_new_store _ _ _ _ _ _ _ ⟨h.1, h.2⟩
  · exact World.has_control w w' _ _ _ _ _ _ _ _ _ _ h hconn hrun
  · exact World.has_control_map _ w' _ _ _ _ _ _ _ _ _ _ _ hdel h hconn hrun

/-- One iteration of `Listen` that accepts another descriptor, or none, leaves a
connection's registration and buffer as they were. -/
theorem Listen_step_has (srv : HttpServer) (w w' : World) (clientFd : Int)
    (currentWorker : Nat) (active : Bool) (epollFd fd : Int) (reg : Nat × Nat) (data : Nat)
    (x : EventData) (h : w.has epollFd fd reg data x) (hfd : clientFd ≠ fd)
    (hrun : Listen.loop srv [clientFd] currentWorker active w = Except.ok w') :
    w'.has epollFd fd reg data x := by
  by_cases hneg : clientFd < 0
  · simp only [Listen.loop, hneg, if_true, Except.ok.injEq] at hrun
    rw [← hrun]
    exact h
  · simp only [Listen.loop, hneg, if_false] at hrun
    cases hadd : ControlEpollEvent
        (w.new.2.store w.new.1 { ({} : EventData) with fd := clientFd })
        (srv._workerEpollFd currentWorker) EPOLL_CTL_ADD clientFd EPOLLIN w.new.1 with
    | error e => simp [hadd] at hrun
    | ok w₁ =>
      simp only [hadd, Except.ok.injEq] at hrun
      rw [← hrun]
      exact World.has_control _ w₁ _ _ _ _ _ _ _ _ _ _
        (World.has_new_store w _ _ _ _ _ _ h) (fun hc => hfd hc.2) hadd

/-! ## The read phase -/

theorem HandleHttpData_eq_requestString (srv : HttpServer) (beyond : Nat → Nat)
    (rawRequest rawResponse : EventData) :
    HandleHttpData srv beyond rawRequest rawResponse =
      (HandleHttpData.respond srv (HandleHttpData.requestString rawRequest)).map
        (fun httpResponse =>
          { rawResponse with
            buffer := memcpyResponse (srv.codec.ToString httpResponse) beyond
            length := (srv.codec.ToString httpResponse).length % SIZE_MOD }) :=
  rfl

/-- A successful `ControlEpollEvent` with `EPOLL_CTL_ADD` leaves the descriptor registered
with the given mask and pointer, and the heap as it was. -/
theorem ControlEpollEvent_add_ok (w w' : World) (epollFd fd : Int) (events data : Nat)
    (h : ControlEpollEvent w epollFd EPOLL_CTL_ADD fd events data = Except.ok w') :
    w'.interest epollFd fd = some (events, data) ∧ w'.heap = w.heap := by
  refine ⟨?_, (ControlEpollEvent_frame w w' _ _ _ _ _ h).1⟩
  cases hinst : StdMap.find w.epoll epollFd with
  | none =>
    simp [ControlEpollEvent, epoll_ctl, hinst, EPOLL_CTL_ADD, EPOLL_CTL_DEL] at h
  | some l =>
    cases hfd : StdMap.find l fd with
    | some old =>
      have hreg : w.interest epollFd fd = some old := by
        simp [World.interest, StdMap.find₂, hinst, hfd]
      rw [ControlEpollEvent_add_registered w epollFd fd events data old hreg] at h
      cases h
    | none =>
      have hfree : w.interest epollFd fd = none := by
        simp [World.interest, StdMap.find₂, hinst, hfd]
      rw [ControlEpollEvent_add_new w epollFd fd events data l hinst hfree] at h
      simp only [Except.ok.injEq] at h
      rw [← h]
      have := StdMap.find₂_modifyAt_insert w.epoll epollFd epollFd fd fd (events, data)
      unfold World.interest at hfree ⊢
      rw [hfree] at this
      simpa using this

/-- A connection the code has brought to AwaitingRead is registered for `EPOLLIN` with a
live buffer that is as `new EventData()` left it, but for `fd`: `length` and `cursor` are 0
and every byte of the array is zero. -/
theorem AwaitingRead.fresh (srv : HttpServer) (w : World) (epollFd fd : Int) (data : Nat)
    (h : AwaitingRead srv w epollFd fd data) :
    w.interest epollFd fd = some (EPOLLIN, data) ∧ w.deref data = some { fd := fd } := by
  induction h with
  | accepted w w' clientFd currentWorker active events data hneg hrun hint =>
    simp only [Listen.loop, hneg, if_false] at hrun
    cases hadd : ControlEpollEvent
        (w.new.2.store w.new.1 { ({} : EventData) with fd := clientFd })
        (srv._workerEpollFd currentWorker) EPOLL_CTL_ADD clientFd EPOLLIN w.new.1 with
    | error e => simp [hadd] at hrun
    | ok w₁ =>
      simp only [hadd, Except.ok.injEq] at hrun
      subst hrun
      obtain ⟨hreg, hheap⟩ := ControlEpollEvent_add_ok _ _ _ _ _ _ hadd
      rw [hreg, Option.some.injEq, Prod.mk.injEq] at hint
      obtain ⟨rfl, rfl⟩ := hint
      refine ⟨hreg, ?_⟩
      unfold World.deref
      rw [hheap]
      show (w.new.2.store w.new.1 { ({} : EventData) with fd := clientFd }).deref w.new.1 = _
      rw [World.deref_store]
      simp
  | written w w' ev response s events data hreg hlive hev htx hle hrun hint =>
    have hevne : ev.events ≠ EPOLLIN := by
      rw [hev]
      decide
    obtain ⟨w'', request, hrun', hint', hfresh, _, _, _⟩ :=
      HandleEpollEvent_send_rest srv w ev response _ s hlive hreg hevne htx hle
    rw [hrun, Except.ok.injEq] at hrun'
    subst hrun'
    rw [hint', Option.some.injEq, Prod.mk.injEq] at hint
    obtain ⟨rfl, rfl⟩ := hint
    exact ⟨hint', hfresh⟩
  | wouldBlock w w' epollFd fd data errno _ herrno hrun ih =>
    obtain ⟨hreg, hlive⟩ := ih
    have hsame := HandleEpollEvent_recv_would_block srv w (readError epollFd data errno)
      { fd := fd } errno hlive hreg rfl rfl herrno
    rw [hrun, Except.ok.injEq] at hsame
    subst hsame
    exact ⟨hreg, hlive⟩
  | otherEvent w w' epollFd fd data ev other _ hother hdata hconn hrun ih =>
    exact HandleEpollEvent_has srv w w' ev epollFd fd _ data _ other ih hother hdata hconn hrun
  | otherAccepted w w' epollFd fd data clientFd currentWorker active _ hfd hrun ih =>
    exact Listen_step_has srv w w' clientFd currentWorker active epollFd fd _ data _ ih hfd
      hrun

theorem recv_into_zero_buffer (bytes : List Nat) (hlt : bytes.length < kMaxBufferSize) :
    (recv (List.replicate kMaxBufferSize 0) kMaxBufferSize (RecvOutcome.data bytes)).2.2 =
      bytes ++ 0 :: List.replicate (kMaxBufferSize - bytes.length - 1) 0 := by
  have hmin : min bytes.length kMaxBufferSize = bytes.length :=
    Nat.min_eq_left (Nat.le_of_lt hlt)
  have hrep : List.replicate (kMaxBufferSize - bytes.length) 0 =
      (0 : Nat) :: List.replicate (kMaxBufferSize - bytes.length - 1) 0 := by
    rw [← List.replicate_succ]
    congr 1
    omega
  simp only [recv, hmin, List.take_length, List.drop_replicate, hrep]

theorem cstr_append_zero (bytes rest : List Nat) (h : ∀ b ∈ bytes, b ≠ 0) :
    cstr (bytes ++ 0 :: rest) = bytes := by
  induction bytes with
  | nil => simp [cstr, List.takeWhile]
  | cons b bs ih =>
    have hb : b ≠ 0 := h b (List.mem_cons_self _ _)
    have hbs : ∀ x ∈ bs, x ≠ 0 := fun x hx => h x (List.mem_cons_of_mem _ hx)
    have := ih hbs
    have hd : decide (b ≠ 0) = true := decide_eq_true hb
    simp only [cstr] at this ⊢
    simp only [List.cons_append, List.takeWhile_cons, hd, if_true, this]

theorem split_at_zero (bytes : List Nat) (i : Nat) (h : bytes[i]? = some 0) :
    bytes = bytes.take i ++ 0 :: bytes.drop (i + 1) := by
  obtain ⟨hi, hget⟩ := List.getElem?_eq_some.mp h
  have := List.drop_eq_getElem_cons hi
  rw [hget] at this
  rw [← this, List.take_append_drop]

/-- C11: a connection the code has brought to AwaitingRead (by acceptance or by a completed
write, then through any number of would-block reads and of calls for other connections) has
an all-zero read buffer. When
`recv` then delivers a payload of `n` bytes, `0 < n < kMaxBufferSize`, the `requestString`
that `HandleHttpData` builds from the buffer and hands to the decoder is exactly the payload
when no payload byte is zero, and exactly the first `i` bytes when the first zero byte of
the payload is at index `i`; and whenever `HandleHttpData` has a response to that string
(nothing outside `std::exception` is thrown), the readable event returns with that response
encoded in a buffer registered for `EPOLLOUT`. -/
theorem decoder_receives_payload (srv : HttpServer) (w : World) (epollFd fd : Int)
    (data : Nat) (bytes : List Nat) (beyond : Nat → Nat)
    (hstate : AwaitingRead srv w epollFd fd data)
    (hpos : 0 < bytes.length) (hlt : bytes.length < kMaxBufferSize) :
    ∃ request, w.deref data = some request ∧
      request.buffer = List.replicate kMaxBufferSize 0 ∧
      ((∀ b ∈ bytes, b ≠ 0) →
        HandleHttpData.requestString
          { request with
            buffer := (recv request.buffer kMaxBufferSize (RecvOutcome.data bytes)).2.2 } =
          bytes ∧
        ∀ resp, HandleHttpData.respond srv bytes = Except.ok resp →
          ∃ w' response,
            HandleEpollEvent srv w (readEvent epollFd data bytes beyond) = Except.ok w' ∧
            w'.interest epollFd fd = some (EPOLLOUT, response) ∧
            w'.deref response = some
              { fd := fd, cursor := 0,
                length := (srv.codec.ToString resp).length % SIZE_MOD,
                buffer := memcpyResponse (srv.codec.ToString resp) beyond }) ∧
      (∀ i, bytes[i]? = some 0 → (∀ b ∈ bytes.take i, b ≠ 0) →
        HandleHttpData.requestString
          { request with
            buffer := (recv request.buffer kMaxBufferSize (RecvOutcome.data bytes)).2.2 } =
          bytes.take i ∧
        ∀ resp, HandleHttpData.respond srv (bytes.take i) = Except.ok resp →
          ∃ w' response,
            HandleEpollEvent srv w (readEvent epollFd data bytes beyond) = Except.ok w' ∧
            w'.interest epollFd fd = some (EPOLLOUT, response) ∧
            w'.deref response = some
              { fd := fd, cursor := 0,
                length := (srv.codec.ToString resp).length % SIZE_MOD,
                buffer := memcpyResponse (srv.codec.ToString resp) beyond }) := by
  obtain ⟨hreg, hlive⟩ := AwaitingRead.fresh srv w epollFd fd data hstate
  have hne : bytes ≠ [] := List.length_pos.mp hpos
  have hbuf := recv_into_zero_buffer bytes hlt
  have hrun : ∀ (s : Str) (resp : HttpResponse),
      cstr (recv (List.replicate kMaxBufferSize 0) kMaxBufferSize
        (RecvOutcome.data bytes)).2.2 = s →
      HandleHttpData.respond srv s = Except.ok resp →
      ∃ w' response,
        HandleEpollEvent srv w (readEvent epollFd data bytes beyond) = Except.ok w' ∧
        w'.interest epollFd fd = some (EPOLLOUT, response) ∧
        w'.deref response = some
          { fd := fd, cursor := 0,
            length := (srv.codec.ToString resp).length % SIZE_MOD,
            buffer := memcpyResponse (srv.codec.ToString resp) beyond } := by
    intro s resp hs hresp
    obtain ⟨w', response, h₁, h₂, h₃, _⟩ :=
      HandleEpollEvent_readable srv w (readEvent epollFd data bytes beyond) { fd := fd }
        bytes (EPOLLIN, data) resp hlive hreg rfl rfl hne (by rw [← hs] at hresp; exact hresp)
    exact ⟨w', response, h₁, h₂, h₃⟩
  refine ⟨{ fd := fd }, hlive, rfl, ?_, ?_⟩
  · intro hnz
    have hs : cstr (recv (List.replicate kMaxBufferSize 0) kMaxBufferSize
        (RecvOutcome.data bytes)).2.2 = bytes := by
      rw [hbuf]
      exact cstr_append_zero bytes _ hnz
    exact ⟨hs, fun resp hresp => hrun bytes resp hs hresp⟩
  · intro i hi hbefore
    have hs : cstr (recv (List.replicate kMaxBufferSize 0) kMaxBufferSize
        (RecvOutcome.data bytes)).2.2 = bytes.take i := by
      rw [hbuf]
      have hsplit := split_at_zero bytes i hi
      have : bytes ++ 0 :: List.replicate (kMaxBufferSize - bytes.length - 1) 0 =
          bytes.take i ++ 0 :: (bytes.drop (i + 1) ++
            0 :: List.replicate (kMaxBufferSize - bytes.length - 1) 0) := by
        nth_rewrite 1 [hsplit]
        rw [List.append_assoc, List.cons_append]
      rw [this]
      exact cstr_append_zero _ _ hbefore
    exact ⟨hs, fun resp hresp => hrun (bytes.take i) resp hs hresp⟩

/-- Witness for C11: the connection accepted in `exampleWorld` (descriptor 20, buffer at
address 1), after one would-block read. The payload `/hello.html` reaches the decoder
whole and the readable event returns with the connection registered for `EPOLLOUT`; of the
payload `/`, zero byte, `a`, the decoder receives `/` alone. And the connection of
`exampleWriting`, once its response is written in one send, is in AwaitingRead again, and
the payload `/` of a second request reaches the decoder whole. -/
theorem decoder_receives_payload_witness :
    AwaitingRead exampleServer exampleWorld 3 20 1 ∧
    (0 < (lit "/hello.html").length ∧ (lit "/hello.html").length < kMaxBufferSize ∧
      ∀ b ∈ lit "/hello.html", b ≠ 0) ∧
    HandleHttpData.requestString
        { fd := 20,
          buffer := (recv (List.replicate kMaxBufferSize 0) kMaxBufferSize
            (RecvOutcome.data (lit "/hello.html"))).2.2 } = lit "/hello.html" ∧
    (∃ w' response,
      HandleEpollEvent exampleServer exampleWorld
          (readEvent 3 1 (lit "/hello.html") (fun _ => 0)) = Except.ok w' ∧
        w'.interest 3 20 = some (EPOLLOUT, response)) ∧
    (([47, 0, 97] : List Nat)[1]? = some 0 ∧ ∀ b ∈ ([47, 0, 97] : List Nat).take 1, b ≠ 0) ∧
    HandleHttpData.requestString
        { fd := 20,
          buffer := (recv (List.replicate kMaxBufferSize 0) kMaxBufferSize
            (RecvOutcome.data [47, 0, 97])).2.2 } = [47] ∧
    (∃ w' data request,
      HandleEpollEvent exampleServer exampleWriting
          { epollFd := 3, data := 2, events := EPOLLOUT, tx := SendOutcome.room 4096 } =
        Except.ok w' ∧
      AwaitingRead exampleServer w' 3 20 data ∧
      w'.deref data = some request ∧
      HandleHttpData.requestString
          { request with
            buffer := (recv request.buffer kMaxBufferSize
              (RecvOutcome.data (lit "/"))).2.2 } = lit "/") := by
  have hacc : AwaitingRead exampleServer exampleWorld 3 20 1 :=
    AwaitingRead.accepted (SetUpEpoll exampleServer {}) exampleWorld 20 0 true EPOLLIN 1
      (by decide) rfl (by decide)
  have hstate : AwaitingRead exampleServer exampleWorld 3 20 1 :=
    AwaitingRead.wouldBlock exampleWorld exampleWorld 3 20 1 EAGAIN hacc (Or.inl rfl)
      (HandleEpollEvent_recv_would_block exampleServer exampleWorld (readError 3 1 EAGAIN)
        { fd := 20 } EAGAIN rfl rfl rfl rfl (Or.inl rfl))
  have hlive : exampleWorld.deref 1 = some { fd := 20 } := rfl
  obtain ⟨request, hderef, _, hwhole, _⟩ :=
    decoder_receives_payload exampleServer exampleWorld 3 20 1 (lit "/hello.html")
      (fun _ => 0) hstate (by decide) (by decide)
  obtain ⟨request₂, hderef₂, _, _, hcut⟩ :=
    decoder_receives_payload exampleServer exampleWorld 3 20 1 [47, 0, 97]
      (fun _ => 0) hstate (by decide) (by decide)
  rw [hlive, Option.some.injEq] at hderef hderef₂
  subst hderef
  subst hderef₂
  have hnz : ∀ b ∈ lit "/hello.html", b ≠ 0 := by decide
  have hbefore : ∀ b ∈ ([47, 0, 97] : List Nat).take 1, b ≠ 0 := by decide
  obtain ⟨hstr, hrun⟩ := hwhole hnz
  obtain ⟨w', response, hok, hint, _⟩ := hrun _ rfl
  obtain ⟨w₂, request₃, hsent, hint₂, _⟩ :=
    HandleEpollEvent_send_rest exampleServer exampleWriting
      { epollFd := 3, data := 2, events := EPOLLOUT, tx := SendOutcome.room 4096 }
      { fd := 20, length := 17, cursor := 0,
        buffer := lit "200\nHello, world\n" ++ List.replicate 4079 0 }
      (EPOLLOUT, 2) 4096 rfl (by decide) (by decide) rfl (by decide)
  have hagain : AwaitingRead exampleServer w₂ 3 20 request₃ :=
    AwaitingRead.written exampleWriting w₂
      { epollFd := 3, data := 2, events := EPOLLOUT, tx := SendOutcome.room 4096 }
      { fd := 20, length := 17, cursor := 0,
        buffer := lit "200\nHello, world\n" ++ List.replicate 4079 0 }
      4096 EPOLLIN request₃ (by decide) rfl rfl rfl (by decide) hsent hint₂
  obtain ⟨request₄, hderef₄, _, hwhole₄, _⟩ :=
    decoder_receives_payload exampleServer w₂ 3 20 request₃ (lit "/") (fun _ => 0) hagain
      (by decide) (by decide)
  exact ⟨hstate, ⟨by decide, by decide, hnz⟩, hstr, ⟨w', response, hok, hint⟩,
    ⟨rfl, hbefore⟩, (hcut 1 rfl hbefore).1,
    ⟨w₂, request₃, request₄, hsent, hagain, hderef₄, (hwhole₄ (by decide)).1⟩⟩

end httpserver
